import Mathlib

/-!
NaOS (Node Assassin) command cycle

A shallow embedding of `src/naos.c`: `setup()`, `loop()`, `printError()` and
`printMessage()`.

Conventions of the embedding.

* The target is an AVR Arduino, where `char` is a signed 8-bit type.  A C `char`
  is an `Int` in `-128 .. 127`; `toChar` is the narrowing conversion performed by
  `command[index] = client.read()` and `ch = client.read()`.  `client.read()`
  yields `-1` when no byte is pending and the byte value `0 .. 255` otherwise, so
  the byte `0xFF` narrows to the `char` `-1`.
* `uint8_t` variables (`node`, `state`, the pin argument) are `Nat` reduced
  modulo `256` by `u8`.
* The pending input of the connection is a list of bytes (`rx`); everything
  handed to `printMessage` is appended, as bytes, both to `serial` and to `net`.
* Pin levels are `Bool` (`true` is `HIGH`); `digitalRead` on a pin returns the
  level last driven on it.
* The local array `command` is a function from indices to `char`s whose initial
  contents (`command0`) are arbitrary; the store the loop condition performs at
  index `5` is kept in that function and touches nothing else.
-/

namespace NaOS

/-! ## Configuration -/

def NODECOUNT : Nat := 5
def FIRSTNODEPIN : Nat := 2
def LOW : Nat := 0
def HIGH : Nat := 1
def OUTPUT : Nat := 1

/-! ## Machine integers and strings -/

/-- Narrowing of an `int` to the signed 8-bit `char`. -/
def toChar (v : Int) : Int := (v + 128) % 256 - 128

/-- Narrowing of an `int` to `uint8_t`. -/
def u8 (v : Int) : Nat := (v % 256).toNat

/-- The byte that goes on the wire for a `char`. -/
def charByte (c : Int) : Nat := (c % 256).toNat

/-- The characters of a string literal, as C `char`s. -/
def lit (s : String) : List Int := s.toList.map (fun c => toChar (c.toNat : Int))

/-- The C string held in an array with the given cells: everything before the
first `NUL`. -/
def cstr (cells : List Int) : List Int := cells.takeWhile (fun c => c != 0)

/-- The `isdigit` of `ctype.h`. -/
def isdigit (c : Int) : Bool := decide (48 ≤ c) && decide (c ≤ 57)

/-- Assignment `a[i] = v`. -/
def store (a : Nat → Int) (i : Nat) (v : Int) : Nat → Int :=
  fun j => if j = i then v else a j

/-! ## The board and the connection -/

/-- What the program can observe and change: pin modes and levels, whether
`server.available()` hands back a usable client, the bytes that client has
pending, and the bytes written so far to the serial port and to the network. -/
structure World where
  mode : Nat → Nat
  pins : Nat → Bool
  client : Bool
  rx : List Nat
  serial : List Nat
  net : List Nat

/-- The Arduino call `pinMode(pin, m)`. -/
def pinMode (pin : Nat) (m : Nat) (w : World) : World :=
  { w with mode := fun p => if p = pin then m else w.mode p }

/-- The Arduino call `digitalWrite(pin, val)`: the pin is cleared when `val` is
`LOW` and set otherwise. -/
def digitalWrite (pin : Nat) (val : Nat) (w : World) : World :=
  { w with pins := fun p => if p = pin then decide (val ≠ LOW) else w.pins p }

/-- The Arduino call `digitalRead(pin)`. -/
def digitalRead (pin : Nat) (w : World) : Nat :=
  if w.pins pin then HIGH else LOW

/-- Source lines 266-271: the message goes to the serial port and to the
network. -/
def printMessage (message : List Int) (w : World) : World :=
  { w with serial := w.serial ++ message.map charByte,
           net := w.net ++ message.map charByte }

/-- Source lines 259-264. -/
def printError (message : List Int) (w : World) : World :=
  printMessage (lit "]\n") (printMessage message (printMessage (lit "Bad command: [") w))

/-- The serial call `Serial.println(s)`: the text and CR LF, on the serial port
only. -/
def serialPrintln (message : List Int) (w : World) : World :=
  { w with serial := w.serial ++ message.map charByte ++ [13, 10] }

/-! ## `setup()` -/

/-- Source lines 86-90: the body of the pin loop, for one value of `pin`. -/
def setupPin (w : World) (pin : Nat) : World :=
  digitalWrite pin LOW (pinMode pin OUTPUT w)

/-- Source lines 75-94: the welcome line on the serial port, then the loop
`for (pin = FIRSTNODEPIN; pin < FIRSTNODEPIN+NODECOUNT; pin++)`. -/
def setup (w : World) : World :=
  (List.range' FIRSTNODEPIN NODECOUNT).foldl setupPin
    (serialPrintln (lit "Node Assassin: 'Ariel' now listening for orders.") w)

/-! ## `loop()` -/

/-- The `char` that the assignment of `client.read()` to a `char` leaves there
when the byte `b` is pending. -/
def readChar (b : Nat) : Int := toChar ((b % 256 : Nat) : Int)

/-- The local state of the read loop when it is left. `stores` lists, oldest
first, every index of `command` that was written. -/
structure ReadState where
  rx : List Nat
  command : Nat → Int
  index : Nat
  stores : List Nat

/-- Source lines 112-120.  Each evaluation of the loop condition first stores the
result of `client.read()` at `command[index]` and only then tests `5 > index`;
`client.read()` is `-1` when no byte is pending and the next byte otherwise. -/
def readLoop : List Nat → (Nat → Int) → Nat → List Nat → ReadState
  | [], command, index, stores =>
    { rx := [], command := store command index (toChar (-1)), index := index,
      stores := stores ++ [index] }
  | b :: rest, command, index, stores =>
    let command := store command index (readChar b)
    let stores := stores ++ [index]
    if (-1 != command index) && decide (5 > index) then
      if (10 == command index) || (13 == command index) then
        { rx := rest, command := command, index := index, stores := stores }
      else readLoop rest command (index + 1) stores
    else { rx := rest, command := command, index := index, stores := stores }

/-- Source lines 143-150: what is left of the input after the spool-off loop. -/
def drainLoop : List Nat → List Nat
  | [] => []
  | b :: rest =>
    let ch := readChar b
    if -1 != ch then
      if (10 == ch) || (13 == ch) then rest else drainLoop rest
    else rest

/-- Source lines 238-243: the body of the status loop, for one value of `i`.
The pair is the array `nodeASCII` and the world. -/
def statusStep (acc : List Int × World) (i : Nat) : List Int × World :=
  let nodeASCII := acc.1.set 0 (toChar (((i + 1) / 10 : Nat) + 48))
  let nodeASCII := nodeASCII.set 1 (toChar (((i + 1) % 10 : Nat) + 48))
  let state := u8 (digitalRead (i + FIRSTNODEPIN) acc.2)
  let w := printMessage (lit "- Node ") acc.2
  let w := printMessage (cstr nodeASCII) w
  let w := printMessage (if LOW = state then lit ": Running\n" else lit ": Fenced!\n") w
  (nodeASCII, w)

/-- Source lines 154-254: the part of `loop()` that follows the length checks,
entered with `index` characters in `command`.  It is reached with `index = 4` only
(`readLoop_cases`), so the `NUL` stored at `command[index]` ends the C string
`command` within the array. -/
def execute (command : Nat → Int) (index : Nat) (w : World) : World :=
  let command := store command index 0
  let text := cstr [command 0, command 1, command 2, command 3, command 4]
  if 58 != command 2 then printError text w
  else if !isdigit (command 0) || !isdigit (command 1) || !isdigit (command 3) then
    printError text w
  else
    let node := u8 (command 0 - 48)
    let node := u8 ((node : Int) * 10)
    let node := u8 ((node : Int) + (command 1 - 48))
    let state := u8 (command 3 - 48)
    let nodeASCII : List Int := [command 0, command 1, 0]
    if node > NODECOUNT then
      let nodeASCII := nodeASCII.set 0 (toChar ((NODECOUNT / 10 : Nat) + 48))
      let nodeASCII := nodeASCII.set 1 (toChar ((NODECOUNT % 10 : Nat) + 48))
      let w := printMessage (lit "This fence only supports up to ") w
      let w := printMessage (cstr nodeASCII) w
      printMessage (lit "nodes.\n") w
    else if state > 1 then
      printMessage
        (lit "Invalid state received. Send 'XX:0' to kill a node, XX:1 to release a node\n") w
    else if 0 = node then
      let w := printMessage (lit "Node states: \n") w
      let nodeASCII := nodeASCII.set 0 (toChar ((NODECOUNT / 10 : Nat) + 48))
      let nodeASCII := nodeASCII.set 1 (toChar ((NODECOUNT % 10 : Nat) + 48))
      let w := printMessage (lit "- Max Node: ") w
      let w := printMessage (cstr nodeASCII) w
      let w := printMessage (lit "\n") w
      let w := ((List.range NODECOUNT).foldl statusStep (nodeASCII, w)).2
      printMessage (lit "End Message.\n") w
    else
      let node := u8 ((node : Int) - 1)
      let w := digitalWrite (u8 ((node : Int) + FIRSTNODEPIN)) (if 0 = state then HIGH else LOW) w
      let w := printMessage (lit "Node ") w
      let w := printMessage text w
      printMessage (if 1 = state then lit ": Now running.\n" else lit ": Now Fenced!\n") w

/-- Source lines 97-256: one cycle.  `command0` is the indeterminate initial
content of the local array `command`. -/
def loop (command0 : Nat → Int) (w : World) : World :=
  if w.client then
    let r := readLoop w.rx command0 0 []
    let w := { w with rx := r.rx }
    if 0 = r.index then w
    else if 4 > r.index then
      printMessage (lit "Message too short. Format is 'XX:Y' where 'XX' is the zero-padded node number and Y is the state to set.\n") w
    else if 5 = r.index then
      let w := printMessage (lit "Message too long. Format is 'XX:Y' where 'XX' is the zero-padded node number and Y is the state to set.\n") w
      { w with rx := drainLoop w.rx }
    else execute r.command r.index w
  else w

/-! ## Vocabulary of the statements -/

/-- The bytes of an ASCII text. -/
def strBytes (s : String) : List Nat := s.toList.map Char.toNat

/-- A world with all pins low and the given pending input. -/
def idleWorld (rx : List Nat) : World :=
  { mode := fun _ => OUTPUT, pins := fun _ => false, client := true, rx := rx,
    serial := [], net := [] }

/-- A byte the read loop takes as one more character of the line: not `CR`, not
`LF`, and not `0xFF` (which narrows to the `char` `-1`). -/
def plain (b : Nat) : Bool := b % 256 != 255 && b % 256 != 10 && b % 256 != 13

/-- The pending input ends the line here for the claims: nothing is pending, or
the next byte is `CR` or `LF`. -/
def lineEnd (rest : List Nat) : Bool :=
  match rest with
  | [] => true
  | t :: _ => t == 10 || t == 13

/-- The read loop stops here whatever the index: nothing is pending, or the next
byte is `CR`, `LF` or `0xFF`. -/
def readStops (rest : List Nat) : Bool :=
  match rest with
  | [] => true
  | t :: _ => t % 256 == 10 || t % 256 == 13 || t % 256 == 255

/-- The `char` stored by the read that ends the line. -/
def lastChar (rest : List Nat) : Int :=
  match rest with
  | [] => toChar (-1)
  | t :: _ => readChar t

/-- One node line of the status report, in the words of the message catalogue:
`- Node <DD>: Running` or `- Node <DD>: Fenced!`, with `DD` the node id as two
digits. -/
def nodeLine (n : Nat) (running : Bool) : List Nat :=
  strBytes "- Node " ++ [48 + n / 10, 48 + n % 10] ++
    strBytes (if running then ": Running\n" else ": Fenced!\n")

/-- The status report in the words of the message catalogue: the header, the
maximum node line, one line per node `1 .. NODECOUNT` in ascending order, and the
terminator line. -/
def statusReport (running : Nat → Bool) : List Nat :=
  strBytes "Node states: \n" ++ strBytes "- Max Node: 05\n" ++
    ((List.range NODECOUNT).map (fun i => nodeLine (i + 1) (running (i + 1)))).flatten ++
    strBytes "End Message.\n"

/-- Whether the node `n` reads as running: its pin `FIRSTNODEPIN + n - 1` is low. -/
def runningAt (pins : Nat → Bool) (n : Nat) : Bool := !pins (FIRSTNODEPIN + n - 1)

/-- The buffer after the four characters of a line and the character that ended it
have been stored. -/
def lineBuffer (command0 : Nat → Int) (c0 c1 c2 c3 t : Int) : Nat → Int :=
  store (store (store (store (store command0 0 c0) 1 c1) 2 c2) 3 c3) 4 t

/-- The byte `d` is an ASCII decimal digit. -/
abbrev digitByte (d : Nat) : Prop := 48 ≤ d ∧ d ≤ 57

/-- The two-digit decimal value `DD` of the digit bytes `d0 d1`. -/
def nodeId (d0 d1 : Nat) : Nat := 10 * (d0 - 48) + (d1 - 48)

/-- Source lines 177-179: the `uint8_t` value `node` decoded from the characters
`command[0]` and `command[1]`. -/
def decodeNode (c0 c1 : Int) : Nat :=
  let node := u8 (c0 - 48)
  let node := u8 ((node : Int) * 10)
  u8 ((node : Int) + (c1 - 48))

/-- Source line 182: the `uint8_t` value `state` decoded from `command[3]`. -/
def decodeState (c3 : Int) : Nat := u8 (c3 - 48)

/-- Source lines 251-253: the pin argument of `digitalWrite`, `node` decremented
and offset by `FIRSTNODEPIN`, as a `uint8_t`. -/
def setPin (node : Nat) : Nat :=
  let node := u8 ((node : Int) - 1)
  u8 ((node : Int) + FIRSTNODEPIN)

/-- The status block for five running nodes, line by line. -/
def allRunningBlock : List Nat :=
  strBytes "Node states: \n" ++ strBytes "- Max Node: 05\n" ++
    strBytes "- Node 01: Running\n" ++ strBytes "- Node 02: Running\n" ++
    strBytes "- Node 03: Running\n" ++ strBytes "- Node 04: Running\n" ++
    strBytes "- Node 05: Running\n" ++ strBytes "End Message.\n"

/-! ## Lemmas on the read loop -/

theorem readChar_eq_neg_one (b : Nat) :
    readChar b = -1 ↔ b % 256 = 255 := by
  unfold readChar toChar; omega

theorem readChar_eq_lf (b : Nat) :
    readChar b = 10 ↔ b % 256 = 10 := by
  unfold readChar toChar; omega

theorem readChar_eq_cr (b : Nat) :
    readChar b = 13 ↔ b % 256 = 13 := by
  unfold readChar toChar; omega

theorem lineEnd_readStops (rest : List Nat) (h : lineEnd rest = true) :
    readStops rest = true := by
  cases rest with
  | nil => rfl
  | cons t r =>
    simp only [lineEnd, Bool.or_eq_true, beq_iff_eq] at h
    rcases h with h | h <;> subst h <;> rfl

theorem readLoop_plain (b : Nat) (rest : List Nat) (command : Nat → Int) (index : Nat)
    (stores : List Nat) (hb : plain b = true) (hi : index < 5) :
    readLoop (b :: rest) command index stores =
      readLoop rest (store command index (readChar b)) (index + 1)
        (stores ++ [index]) := by
  simp only [plain, Bool.and_eq_true, bne_iff_ne, ne_eq] at hb
  obtain ⟨⟨h1, h2⟩, h3⟩ := hb
  have e1 := readChar_eq_neg_one b
  have e2 := readChar_eq_lf b
  have e3 := readChar_eq_cr b
  have n1 : ¬ (-1 : Int) = readChar b := fun h => h1 (e1.mp h.symm)
  have n2 : ¬ (10 : Int) = readChar b := fun h => h2 (e2.mp h.symm)
  have n3 : ¬ (13 : Int) = readChar b := fun h => h3 (e3.mp h.symm)
  simp [readLoop, store, n1, n2, n3, hi]

theorem readLoop_stop (rest : List Nat) (command : Nat → Int) (index : Nat)
    (stores : List Nat) (h : readStops rest = true) :
    readLoop rest command index stores =
      { rx := rest.tail, command := store command index (lastChar rest), index := index,
        stores := stores ++ [index] } := by
  cases rest with
  | nil => simp [readLoop, lastChar]
  | cons t r =>
    simp only [readStops, Bool.or_eq_true, beq_iff_eq] at h
    have e1 := readChar_eq_neg_one t
    have e2 := readChar_eq_lf t
    have e3 := readChar_eq_cr t
    rcases h with (h | h) | h
    · have := e2.mpr h
      simp [readLoop, store, lastChar, this]
    · have := e3.mpr h
      simp [readLoop, store, lastChar, this]
    · have := e1.mpr h
      simp [readLoop, store, lastChar, this]

theorem readLoop_full (rest : List Nat) (command : Nat → Int) (stores : List Nat) :
    readLoop rest command 5 stores =
      { rx := rest.tail, command := store command 5 (lastChar rest), index := 5,
        stores := stores ++ [5] } := by
  cases rest with
  | nil => simp [readLoop, lastChar]
  | cons t r => simp [readLoop, lastChar]

theorem readLoop_four (command0 : Nat → Int) (b0 b1 b2 b3 : Nat) (rest : List Nat)
    (h0 : plain b0 = true) (h1 : plain b1 = true) (h2 : plain b2 = true)
    (h3 : plain b3 = true) (hend : readStops rest = true) :
    readLoop (b0 :: b1 :: b2 :: b3 :: rest) command0 0 [] =
      { rx := rest.tail,
        command := lineBuffer command0 (readChar b0) (readChar b1) (readChar b2) (readChar b3)
          (lastChar rest),
        index := 4, stores := [0, 1, 2, 3, 4] } := by
  rw [readLoop_plain b0 _ _ _ _ h0 (by decide), readLoop_plain b1 _ _ _ _ h1 (by decide),
    readLoop_plain b2 _ _ _ _ h2 (by decide), readLoop_plain b3 _ _ _ _ h3 (by decide),
    readLoop_stop _ _ _ _ hend]
  rfl

theorem loop_four (command0 : Nat → Int) (w : World) (b0 b1 b2 b3 : Nat) (rest : List Nat)
    (hc : w.client = true) (hrx : w.rx = b0 :: b1 :: b2 :: b3 :: rest)
    (h0 : plain b0 = true) (h1 : plain b1 = true) (h2 : plain b2 = true)
    (h3 : plain b3 = true) (hend : readStops rest = true) :
    loop command0 w =
      execute (lineBuffer command0 (readChar b0) (readChar b1) (readChar b2) (readChar b3)
          (lastChar rest)) 4 { w with rx := rest.tail } := by
  simp [loop, hc, hrx, readLoop_four command0 b0 b1 b2 b3 rest h0 h1 h2 h3 hend]

/-! ## Lemmas on characters -/

theorem readChar_of_lt (b : Nat) (h : b < 128) : readChar b = (b : Int) := by
  unfold readChar toChar; omega

theorem charByte_readChar (b : Nat) : charByte (readChar b) = b % 256 := by
  unfold charByte readChar toChar; omega

theorem readChar_eq_zero (b : Nat) : readChar b = 0 ↔ b % 256 = 0 := by
  unfold readChar toChar; omega

theorem readChar_eq_colon (b : Nat) : readChar b = 58 ↔ b % 256 = 58 := by
  unfold readChar toChar; omega

theorem isdigit_readChar (b : Nat) :
    isdigit (readChar b) = (decide (48 ≤ b % 256) && decide (b % 256 ≤ 57)) := by
  unfold isdigit readChar toChar
  rw [Bool.eq_iff_iff]
  simp only [Bool.and_eq_true, decide_eq_true_eq]
  omega

theorem map_charByte_lit (s : String)
    (h : s.toList.all (fun c => decide (c.toNat < 128)) = true) :
    (lit s).map charByte = strBytes s := by
  unfold lit strBytes
  rw [List.map_map]
  apply List.map_congr_left
  intro c hc
  have hlt : c.toNat < 128 := by
    have := List.all_eq_true.mp h c hc
    simpa using this
  simp only [Function.comp, charByte, toChar]
  omega

theorem isdigit_cast (d : Nat) (h : 48 ≤ d ∧ d ≤ 57) : isdigit (d : Int) = true := by
  unfold isdigit
  simp only [Bool.and_eq_true, decide_eq_true_eq]
  omega

theorem node_decode (d0 d1 : Nat) (h0 : 48 ≤ d0 ∧ d0 ≤ 57) (h1 : 48 ≤ d1 ∧ d1 ≤ 57) :
    u8 (((u8 (((u8 ((d0 : Int) - 48) : Nat) : Int) * 10) : Nat) : Int) + ((d1 : Int) - 48)) =
      10 * (d0 - 48) + (d1 - 48) := by
  unfold u8; omega

theorem state_decode (s : Nat) (h : 48 ≤ s ∧ s ≤ 57) : u8 ((s : Int) - 48) = s - 48 := by
  unfold u8; omega

theorem cstr_nil : cstr [] = [] := rfl

theorem cstr_zero (cs : List Int) : cstr (0 :: cs) = [] := by
  simp [cstr, List.takeWhile_cons]

theorem cstr_cons (c : Int) (cs : List Int) (h : c ≠ 0) : cstr (c :: cs) = c :: cstr cs := by
  simp [cstr, List.takeWhile_cons, h]

theorem cstr_four (c0 c1 c2 c3 : Int) (h0 : c0 ≠ 0) (h1 : c1 ≠ 0) (h2 : c2 ≠ 0)
    (h3 : c3 ≠ 0) : cstr [c0, c1, c2, c3, 0] = [c0, c1, c2, c3] := by
  rw [cstr_cons _ _ h0, cstr_cons _ _ h1, cstr_cons _ _ h2, cstr_cons _ _ h3, cstr_zero]

theorem charByte_cast (b : Nat) (h : b < 256) : charByte (b : Int) = b := by
  unfold charByte; omega

theorem printMessage_printMessage (a b : List Int) (w : World) :
    printMessage b (printMessage a w) = printMessage (a ++ b) w := by
  simp [printMessage, List.append_assoc]

theorem execute_digits (command0 : Nat → Int) (w : World) (d0 d1 s : Nat) (t : Int)
    (h0 : 48 ≤ d0 ∧ d0 ≤ 57) (h1 : 48 ≤ d1 ∧ d1 ≤ 57) (hs : 48 ≤ s ∧ s ≤ 57) :
    execute (lineBuffer command0 (readChar d0) (readChar d1) (readChar 58) (readChar s) t) 4 w =
      if 10 * (d0 - 48) + (d1 - 48) > NODECOUNT then
        printMessage (lit "This fence only supports up to " ++ [48, 53] ++ lit "nodes.\n") w
      else if s - 48 > 1 then
        printMessage
          (lit "Invalid state received. Send 'XX:0' to kill a node, XX:1 to release a node\n") w
      else if 0 = 10 * (d0 - 48) + (d1 - 48) then
        printMessage (lit "End Message.\n")
          ((List.range NODECOUNT).foldl statusStep
            ([48, 53, 0],
              printMessage (lit "Node states: \n" ++ lit "- Max Node: " ++ [48, 53] ++ lit "\n")
                w)).2
      else
        printMessage
          (lit "Node " ++ [(d0 : Int), (d1 : Int), 58, (s : Int)] ++
            (if 1 = s - 48 then lit ": Now running.\n" else lit ": Now Fenced!\n"))
          (digitalWrite (10 * (d0 - 48) + (d1 - 48) - 1 + FIRSTNODEPIN)
            (if 0 = s - 48 then HIGH else LOW) w) := by
  rw [readChar_of_lt d0 (by omega), readChar_of_lt d1 (by omega), readChar_of_lt s (by omega),
    readChar_of_lt 58 (by omega)]
  simp only [execute, store, lineBuffer]
  simp only [Nat.reduceEqDiff, reduceIte, if_false, if_true, OfNat.zero_ne_ofNat]
  rw [node_decode d0 d1 h0 h1, state_decode s hs]
  simp only [isdigit_cast _ h0, isdigit_cast _ h1, isdigit_cast _ hs]
  rw [cstr_four _ _ _ _ (by omega) (by omega) (by norm_num) (by omega)]
  have h05 : cstr (([(d0 : Int), (d1 : Int), 0].set 0 (toChar (((NODECOUNT / 10 : Nat) : Int) + 48))).set 1
      (toChar (((NODECOUNT % 10 : Nat) : Int) + 48))) = [48, 53] := by
    simp [NODECOUNT, toChar, cstr, List.takeWhile]
  have h05b : ([(d0 : Int), (d1 : Int), 0].set 0 (toChar (((NODECOUNT / 10 : Nat) : Int) + 48))).set 1
      (toChar (((NODECOUNT % 10 : Nat) : Int) + 48)) = [48, 53, 0] := by
    simp [NODECOUNT, toChar]
  rw [h05, h05b]
  have h58 : ((58 : Nat) : Int) = 58 := rfl
  rw [h58]
  simp only [bne_self_eq_false, Bool.not_true, Bool.or_self, Bool.false_eq_true, if_false]
  by_cases hgt : 10 * (d0 - 48) + (d1 - 48) > NODECOUNT
  · simp only [hgt, if_true, printMessage_printMessage]
  · by_cases hst : s - 48 > 1
    · simp only [hgt, hst, if_true, if_false]
    · by_cases hz : 0 = 10 * (d0 - 48) + (d1 - 48)
      · simp only [hgt, hst, if_false]
        rw [if_pos hz, if_pos hz]
        simp only [printMessage_printMessage, List.append_assoc]
      · have hpin : u8 (((u8 (((10 * (d0 - 48) + (d1 - 48) : Nat) : Int) - 1) : Nat) : Int) +
            (FIRSTNODEPIN : Int)) = 10 * (d0 - 48) + (d1 - 48) - 1 + FIRSTNODEPIN := by
          unfold NODECOUNT at hgt
          unfold u8 FIRSTNODEPIN; omega
        simp only [hgt, hst, hz, if_false, hpin, printMessage_printMessage, List.append_assoc]

theorem toChar_of_small (v : Int) (h : -128 ≤ v ∧ v < 128) : toChar v = v := by
  unfold toChar; omega

theorem statusStep_eq (a b : Int) (w : World) (i : Nat) (hi : i + 1 < 100) :
    statusStep ([a, b, 0], w) i =
      ([(((i + 1) / 10 : Nat) : Int) + 48, (((i + 1) % 10 : Nat) : Int) + 48, 0],
        { w with serial := w.serial ++ nodeLine (i + 1) (runningAt w.pins (i + 1)),
                 net := w.net ++ nodeLine (i + 1) (runningAt w.pins (i + 1)) }) := by
  have hp : FIRSTNODEPIN + (i + 1) - 1 = i + FIRSTNODEPIN := by omega
  have e0 : toChar ((((i + 1) / 10 : Nat) : Int) + 48) = (((i + 1) / 10 : Nat) : Int) + 48 :=
    toChar_of_small _ (by omega)
  have e1 : toChar ((((i + 1) % 10 : Nat) : Int) + 48) = (((i + 1) % 10 : Nat) : Int) + 48 :=
    toChar_of_small _ (by omega)
  have b0 : charByte ((((i + 1) / 10 : Nat) : Int) + 48) = 48 + (i + 1) / 10 := by
    unfold charByte; omega
  have b1 : charByte ((((i + 1) % 10 : Nat) : Int) + 48) = 48 + (i + 1) % 10 := by
    unfold charByte; omega
  have hrun : (lit ": Running\n").map charByte = strBytes ": Running\n" :=
    map_charByte_lit _ (by decide)
  have hfen : (lit ": Fenced!\n").map charByte = strBytes ": Fenced!\n" :=
    map_charByte_lit _ (by decide)
  have hnode : (lit "- Node ").map charByte = strBytes "- Node " :=
    map_charByte_lit _ (by decide)
  simp only [statusStep, List.set, e0, e1, printMessage_printMessage]
  rw [cstr_cons _ _ (by omega), cstr_cons _ _ (by omega), cstr_zero]
  simp only [runningAt, hp, nodeLine, printMessage, List.map_append, List.map_cons, List.map_nil,
    b0, b1, hnode, digitalRead, u8, HIGH, LOW]
  cases hpin : w.pins (i + FIRSTNODEPIN) <;> simp [hrun, hfen]

theorem statusLoop_eq (a b : Int) (w : World) :
    ((List.range NODECOUNT).foldl statusStep ([a, b, 0], w)).2 =
      { w with
        serial := w.serial ++
          ((List.range NODECOUNT).map (fun i => nodeLine (i + 1) (runningAt w.pins (i + 1)))).flatten,
        net := w.net ++
          ((List.range NODECOUNT).map (fun i => nodeLine (i + 1) (runningAt w.pins (i + 1)))).flatten } := by
  have hr : List.range NODECOUNT = [0, 1, 2, 3, 4] := by decide
  rw [hr]
  simp only [List.foldl_cons, List.foldl_nil]
  rw [statusStep_eq a b w 0 (by omega), statusStep_eq _ _ _ 1 (by omega),
    statusStep_eq _ _ _ 2 (by omega), statusStep_eq _ _ _ 3 (by omega),
    statusStep_eq _ _ _ 4 (by omega)]
  simp [List.append_assoc]

theorem execute_query (command0 : Nat → Int) (w : World) (s : Nat) (t : Int)
    (hs : s = 48 ∨ s = 49) :
    execute (lineBuffer command0 (readChar 48) (readChar 48) (readChar 58) (readChar s) t) 4 w =
      { w with serial := w.serial ++ statusReport (runningAt w.pins),
               net := w.net ++ statusReport (runningAt w.pins) } := by
  rw [execute_digits command0 w 48 48 s t (by omega) (by omega) (by omega)]
  have hst : ¬ (s - 48 > 1) := by omega
  have h1 : (lit "Node states: \n").map charByte = strBytes "Node states: \n" :=
    map_charByte_lit _ (by decide)
  have h2 : ∀ X : List Nat, List.map charByte (lit "- Max Node: ") ++
      (List.map charByte [48, 53] ++ (List.map charByte (lit "\n") ++ X)) =
        strBytes "- Max Node: 05\n" ++ X := by
    intro X
    have e : List.map charByte (lit "- Max Node: ") ++
        (List.map charByte [48, 53] ++ List.map charByte (lit "\n")) =
          strBytes "- Max Node: 05\n" := by decide
    rw [← e]
    simp only [List.append_assoc]
  have h3 : (lit "End Message.\n").map charByte = strBytes "End Message.\n" :=
    map_charByte_lit _ (by decide)
  rw [if_neg (by decide), if_neg hst, if_pos (by decide), statusLoop_eq]
  simp only [printMessage, statusReport, List.map_append, h1, h3, List.append_assoc, h2]

theorem execute_bad (command0 : Nat → Int) (w : World) (c0 c1 c2 c3 t : Int)
    (h : c2 ≠ 58 ∨ isdigit c0 = false ∨ isdigit c1 = false ∨ isdigit c3 = false) :
    execute (lineBuffer command0 c0 c1 c2 c3 t) 4 w = printError (cstr [c0, c1, c2, c3, 0]) w := by
  simp only [execute, store, lineBuffer]
  simp only [Nat.reduceEqDiff, reduceIte, if_false, if_true, OfNat.zero_ne_ofNat]
  by_cases h2 : c2 = 58
  · have hd : (!isdigit c0 || !isdigit c1 || !isdigit c3) = true := by
      rcases h with h | h | h | h
      · exact absurd h2 h
      · simp [h]
      · simp [h]
      · simp [h]
    rw [if_neg (by simp [h2]), if_pos hd]
  · have hne : (58 != c2) = true := by
      simp only [bne_iff_ne, ne_eq]
      exact fun e => h2 e.symm
    rw [if_pos hne]

theorem cstr_readChar (bs : List Nat) (h : ∀ b ∈ bs, b < 256) :
    (cstr (bs.map readChar ++ [0])).map charByte = bs.takeWhile (fun b => b != 0) := by
  induction bs with
  | nil => simp [cstr_zero]
  | cons b bs ih =>
    have hb : b < 256 := h b (List.mem_cons_self _ _)
    have ih := ih (fun x hx => h x (List.mem_cons_of_mem _ hx))
    by_cases hz : b = 0
    · subst hz
      have : readChar 0 = 0 := by decide
      simp [this, cstr_zero, List.takeWhile_cons]
    · have hne : readChar b ≠ 0 := by
        intro e
        have := (readChar_eq_zero b).mp e
        omega
      have hcb : charByte (readChar b) = b := by
        rw [charByte_readChar]; omega
      simp only [List.map_cons, List.cons_append]
      rw [cstr_cons _ _ hne]
      simp [List.takeWhile_cons, hz, hcb, ih]

theorem printMessage_eq (m : List Int) (w : World) (bytes : List Nat)
    (h : m.map charByte = bytes) :
    printMessage m w = { w with serial := w.serial ++ bytes, net := w.net ++ bytes } := by
  simp [printMessage, h]

theorem execute_nodeRange (command0 : Nat → Int) (w : World) (d0 d1 s : Nat) (t : Int)
    (h0 : 48 ≤ d0 ∧ d0 ≤ 57) (h1 : 48 ≤ d1 ∧ d1 ≤ 57) (hs : 48 ≤ s ∧ s ≤ 57)
    (hn : NODECOUNT < 10 * (d0 - 48) + (d1 - 48)) :
    execute (lineBuffer command0 (readChar d0) (readChar d1) (readChar 58) (readChar s) t) 4 w =
      { w with
        serial := w.serial ++ strBytes "This fence only supports up to 05nodes.\n",
        net := w.net ++ strBytes "This fence only supports up to 05nodes.\n" } := by
  rw [execute_digits command0 w d0 d1 s t h0 h1 hs, if_pos hn]
  exact printMessage_eq _ _ _ (by decide)

theorem execute_stateRange (command0 : Nat → Int) (w : World) (d0 d1 s : Nat) (t : Int)
    (h0 : 48 ≤ d0 ∧ d0 ≤ 57) (h1 : 48 ≤ d1 ∧ d1 ≤ 57) (hs : 50 ≤ s ∧ s ≤ 57)
    (hn : 10 * (d0 - 48) + (d1 - 48) ≤ NODECOUNT) :
    execute (lineBuffer command0 (readChar d0) (readChar d1) (readChar 58) (readChar s) t) 4 w =
      { w with
        serial := w.serial ++ strBytes
          "Invalid state received. Send 'XX:0' to kill a node, XX:1 to release a node\n",
        net := w.net ++ strBytes
          "Invalid state received. Send 'XX:0' to kill a node, XX:1 to release a node\n" } := by
  rw [execute_digits command0 w d0 d1 s t h0 h1 (by omega), if_neg (by omega),
    if_pos (by omega)]
  exact printMessage_eq _ _ _ (by decide)

theorem execute_set (command0 : Nat → Int) (w : World) (d0 d1 s : Nat) (t : Int)
    (h0 : 48 ≤ d0 ∧ d0 ≤ 57) (h1 : 48 ≤ d1 ∧ d1 ≤ 57) (hs : s = 48 ∨ s = 49)
    (hn : 1 ≤ 10 * (d0 - 48) + (d1 - 48) ∧ 10 * (d0 - 48) + (d1 - 48) ≤ NODECOUNT) :
    execute (lineBuffer command0 (readChar d0) (readChar d1) (readChar 58) (readChar s) t) 4 w =
      { w with
        pins := fun p =>
          if p = FIRSTNODEPIN + (10 * (d0 - 48) + (d1 - 48)) - 1 then decide (s = 48)
          else w.pins p,
        serial := w.serial ++ (strBytes "Node " ++ [d0, d1, 58, s] ++
          strBytes (if s = 49 then ": Now running.\n" else ": Now Fenced!\n")),
        net := w.net ++ (strBytes "Node " ++ [d0, d1, 58, s] ++
          strBytes (if s = 49 then ": Now running.\n" else ": Now Fenced!\n")) } := by
  rw [execute_digits command0 w d0 d1 s t h0 h1 (by omega), if_neg (by omega),
    if_neg (by omega), if_neg (by omega)]
  have hp : 10 * (d0 - 48) + (d1 - 48) - 1 + FIRSTNODEPIN =
      FIRSTNODEPIN + (10 * (d0 - 48) + (d1 - 48)) - 1 := by omega
  have hnode : (lit "Node ").map charByte = strBytes "Node " := map_charByte_lit _ (by decide)
  have hrun : (lit ": Now running.\n").map charByte = strBytes ": Now running.\n" :=
    map_charByte_lit _ (by decide)
  have hfen : (lit ": Now Fenced!\n").map charByte = strBytes ": Now Fenced!\n" :=
    map_charByte_lit _ (by decide)
  have c0 : charByte (d0 : Int) = d0 := charByte_cast _ (by omega)
  have c1 : charByte (d1 : Int) = d1 := charByte_cast _ (by omega)
  have c58 : charByte 58 = 58 := by decide
  rw [hp]
  rcases hs with rfl | rfl
  · simp [printMessage, digitalWrite, HIGH, LOW, hnode, hfen, c0, c1, c58]
    decide
  · simp [printMessage, digitalWrite, HIGH, LOW, hnode, hrun, c0, c1, c58]
    decide

/-! ## Lemmas on whole cycles -/

theorem not_readStops (rest : List Nat) (h : ¬ readStops rest = true) :
    ∃ b r, rest = b :: r ∧ plain b = true := by
  cases rest with
  | nil => exact absurd rfl h
  | cons b r =>
    refine ⟨b, r, rfl, ?_⟩
    simp only [readStops, Bool.or_eq_true, beq_iff_eq, not_or] at h
    simp only [plain, Bool.and_eq_true, bne_iff_ne, ne_eq]
    exact ⟨⟨h.2, h.1.1⟩, h.1.2⟩

theorem plain_not_readStops (b : Nat) (r : List Nat) (h : plain b = true) :
    ¬ readStops (b :: r) = true := by
  simp only [plain, Bool.and_eq_true, bne_iff_ne, ne_eq] at h
  simp only [readStops, Bool.or_eq_true, beq_iff_eq, not_or]
  exact ⟨⟨h.1.2, h.2⟩, h.1.1⟩

theorem readLoop_line (line rest : List Nat) (command : Nat → Int) (index : Nat)
    (stores : List Nat) (hplain : ∀ b ∈ line, plain b = true)
    (hlen : index + line.length ≤ 5) :
    ∃ command1 stores1, readLoop (line ++ rest) command index stores =
      readLoop rest command1 (index + line.length) stores1 := by
  induction line generalizing command index stores with
  | nil => exact ⟨command, stores, rfl⟩
  | cons b bs ih =>
    have hb : plain b = true := hplain b (List.mem_cons_self _ _)
    simp only [List.length_cons] at hlen
    obtain ⟨c1, s1, h1⟩ := ih (store command index (readChar b)) (index + 1)
      (stores ++ [index]) (fun x hx => hplain x (List.mem_cons_of_mem _ hx)) (by omega)
    refine ⟨c1, s1, ?_⟩
    rw [List.cons_append, readLoop_plain b _ _ _ _ hb (by omega), h1, List.length_cons]
    congr 1
    omega

theorem loop_noClient (command0 : Nat → Int) (w : World) (hc : w.client = false) :
    loop command0 w = w := by
  simp [loop, hc]

theorem loop_empty (command0 : Nat → Int) (w : World) (hc : w.client = true)
    (hend : readStops w.rx = true) :
    loop command0 w = { w with rx := w.rx.tail } := by
  simp [loop, hc, readLoop_stop _ _ _ _ hend]

theorem loop_short (command0 : Nat → Int) (w : World) (line rest : List Nat)
    (hc : w.client = true) (hrx : w.rx = line ++ rest)
    (hplain : ∀ b ∈ line, plain b = true)
    (hlen : 1 ≤ line.length ∧ line.length ≤ 3) (hend : readStops rest = true) :
    loop command0 w =
      { w with
        rx := rest.tail,
        serial := w.serial ++ strBytes "Message too short. Format is 'XX:Y' where 'XX' is the zero-padded node number and Y is the state to set.\n",
        net := w.net ++ strBytes "Message too short. Format is 'XX:Y' where 'XX' is the zero-padded node number and Y is the state to set.\n" } := by
  obtain ⟨c1, s1, h1⟩ := readLoop_line line rest command0 0 [] hplain (by omega)
  rw [readLoop_stop _ _ _ _ hend, Nat.zero_add] at h1
  have hm : (lit "Message too short. Format is 'XX:Y' where 'XX' is the zero-padded node number and Y is the state to set.\n").map charByte = strBytes "Message too short. Format is 'XX:Y' where 'XX' is the zero-padded node number and Y is the state to set.\n" :=
    map_charByte_lit _ (by decide)
  have hz : ¬ (0 = line.length) := by omega
  have h4 : 4 > line.length := by omega
  simp only [loop, hc, hrx, h1, if_true, hz, if_false, h4]
  exact printMessage_eq _ _ _ hm

theorem loop_long (command0 : Nat → Int) (w : World) (line rest : List Nat)
    (hc : w.client = true) (hrx : w.rx = line ++ rest)
    (hplain : ∀ b ∈ line, plain b = true) (hlen : line.length = 5) :
    loop command0 w =
      { w with
        rx := drainLoop rest.tail,
        serial := w.serial ++ strBytes "Message too long. Format is 'XX:Y' where 'XX' is the zero-padded node number and Y is the state to set.\n",
        net := w.net ++ strBytes "Message too long. Format is 'XX:Y' where 'XX' is the zero-padded node number and Y is the state to set.\n" } := by
  obtain ⟨c1, s1, h1⟩ := readLoop_line line rest command0 0 [] hplain (by omega)
  rw [Nat.zero_add, hlen, readLoop_full] at h1
  have hm : (lit "Message too long. Format is 'XX:Y' where 'XX' is the zero-padded node number and Y is the state to set.\n").map charByte = strBytes "Message too long. Format is 'XX:Y' where 'XX' is the zero-padded node number and Y is the state to set.\n" :=
    map_charByte_lit _ (by decide)
  simp only [loop, hc, hrx, h1, if_true]
  rw [printMessage_eq _ _ _ hm]
  simp

theorem readLoop_cases (rx : List Nat) (command0 : Nat → Int) :
    (readLoop rx command0 0 []).index < 4 ∨ (readLoop rx command0 0 []).index = 5 ∨
      ∃ b0 b1 b2 b3 rest, rx = b0 :: b1 :: b2 :: b3 :: rest ∧ plain b0 = true ∧
        plain b1 = true ∧ plain b2 = true ∧ plain b3 = true ∧ readStops rest = true := by
  by_cases e0 : readStops rx = true
  · left; rw [readLoop_stop _ _ _ _ e0]; simp
  obtain ⟨b0, r0, rfl, p0⟩ := not_readStops rx e0
  rw [readLoop_plain b0 _ _ _ _ p0 (by decide)]
  by_cases e1 : readStops r0 = true
  · left; rw [readLoop_stop _ _ _ _ e1]; simp
  obtain ⟨b1, r1, rfl, p1⟩ := not_readStops r0 e1
  rw [readLoop_plain b1 _ _ _ _ p1 (by decide)]
  by_cases e2 : readStops r1 = true
  · left; rw [readLoop_stop _ _ _ _ e2]; simp
  obtain ⟨b2, r2, rfl, p2⟩ := not_readStops r1 e2
  rw [readLoop_plain b2 _ _ _ _ p2 (by decide)]
  by_cases e3 : readStops r2 = true
  · left; rw [readLoop_stop _ _ _ _ e3]; simp
  obtain ⟨b3, r3, rfl, p3⟩ := not_readStops r2 e3
  rw [readLoop_plain b3 _ _ _ _ p3 (by decide)]
  by_cases e4 : readStops r3 = true
  · right; right
    exact ⟨b0, b1, b2, b3, r3, rfl, p0, p1, p2, p3, e4⟩
  obtain ⟨b4, r4, rfl, p4⟩ := not_readStops r3 e4
  rw [readLoop_plain b4 _ _ _ _ p4 (by decide), readLoop_full]
  right; left; rfl

theorem plain_of_digit (d : Nat) (h : digitByte d) : plain d = true := by
  simp only [plain, Bool.and_eq_true, bne_iff_ne, ne_eq]
  unfold digitByte at h
  omega

theorem loop_digits (command0 : Nat → Int) (w : World) (d0 d1 s : Nat) (rest : List Nat)
    (hc : w.client = true) (hrx : w.rx = d0 :: d1 :: 58 :: s :: rest)
    (h0 : digitByte d0) (h1 : digitByte d1) (hs : digitByte s)
    (hend : readStops rest = true) :
    loop command0 w =
      execute (lineBuffer command0 (readChar d0) (readChar d1) (readChar 58) (readChar s)
        (lastChar rest)) 4 { w with rx := rest.tail } :=
  loop_four command0 w d0 d1 58 s rest hc hrx (plain_of_digit _ h0) (plain_of_digit _ h1)
    (by decide) (plain_of_digit _ hs) hend

theorem printMessage_pins (m : List Int) (w : World) : (printMessage m w).pins = w.pins := rfl

theorem printError_pins (m : List Int) (w : World) : (printError m w).pins = w.pins := rfl

theorem execute_digits_pins (command0 : Nat → Int) (w : World) (d0 d1 s : Nat) (t : Int)
    (h0 : digitByte d0) (h1 : digitByte d1) (hs : digitByte s) :
    (execute (lineBuffer command0 (readChar d0) (readChar d1) (readChar 58) (readChar s) t) 4
        w).pins = w.pins ∨
      ((s = 48 ∨ s = 49) ∧ 1 ≤ nodeId d0 d1 ∧ nodeId d0 d1 ≤ NODECOUNT ∧
        ∀ p, p ≠ FIRSTNODEPIN + nodeId d0 d1 - 1 →
          (execute (lineBuffer command0 (readChar d0) (readChar d1) (readChar 58) (readChar s)
            t) 4 w).pins p = w.pins p) := by
  unfold nodeId
  unfold digitByte at h0 h1 hs
  by_cases hgt : NODECOUNT < 10 * (d0 - 48) + (d1 - 48)
  · left; rw [execute_nodeRange command0 w d0 d1 s t h0 h1 hs hgt]
  by_cases hst : 50 ≤ s
  · left; rw [execute_stateRange command0 w d0 d1 s t h0 h1 ⟨hst, hs.2⟩ (by omega)]
  have hs2 : s = 48 ∨ s = 49 := by omega
  by_cases hz : 10 * (d0 - 48) + (d1 - 48) = 0
  · have e0 : d0 = 48 := by omega
    have e1 : d1 = 48 := by omega
    subst e0 e1
    left; rw [execute_query command0 w s t hs2]
  · right
    refine ⟨hs2, by omega, by omega, ?_⟩
    intro p hp
    rw [execute_set command0 w d0 d1 s t h0 h1 hs2 ⟨by omega, by omega⟩]
    simp [hp]

theorem statusReport_head (f : Nat → Bool) : ∃ tl, statusReport f = 78 :: tl := by
  have h : strBytes "Node states: \n" = 78 :: strBytes "ode states: \n" := by decide
  unfold statusReport
  rw [h]
  exact ⟨_, rfl⟩

theorem plain_of_byte (b : Nat) (h : b < 255 ∧ b ≠ 10 ∧ b ≠ 13) : plain b = true := by
  simp only [plain, Bool.and_eq_true, bne_iff_ne, ne_eq]
  omega

/-! ## The claims -/

/-- C1: for every node id `n` in `1 .. NODECOUNT`, sent as the two digits `DD`, every
state digit `S` in '0', '1' and every pin configuration, one cycle on the line
`DD:S` leaves pin `FIRSTNODEPIN + n - 1` reading `HIGH` for '0' and `LOW` for '1',
and sends exactly `Node DD:S: Now Fenced!` or `Node DD:S: Now running.` -/
theorem loop_setState_confirms (command0 : Nat → Int) (w : World) (n s : Nat)
    (rest : List Nat) (hc : w.client = true) (hn : 1 ≤ n ∧ n ≤ NODECOUNT)
    (hs : s = 0 ∨ s = 1)
    (hrx : w.rx = [48 + n / 10, 48 + n % 10, 58, 48 + s] ++ rest)
    (hend : lineEnd rest = true) :
    digitalRead (FIRSTNODEPIN + n - 1) (loop command0 w) = (if s = 0 then HIGH else LOW) ∧
      (loop command0 w).net =
        w.net ++ (strBytes "Node " ++ [48 + n / 10, 48 + n % 10, 58, 48 + s] ++
          strBytes (if s = 0 then ": Now Fenced!\n" else ": Now running.\n")) := by
  unfold NODECOUNT at hn
  have h0 : digitByte (48 + n / 10) := by unfold digitByte; omega
  have h1 : digitByte (48 + n % 10) := by unfold digitByte; omega
  have h3 : digitByte (48 + s) := by unfold digitByte; omega
  have hid : 10 * (48 + n / 10 - 48) + (48 + n % 10 - 48) = n := by omega
  rw [loop_digits command0 w _ _ _ rest hc hrx h0 h1 h3 (lineEnd_readStops _ hend),
    execute_set _ _ _ _ _ _ h0 h1 (by omega) (by unfold NODECOUNT; omega), hid]
  rcases hs with rfl | rfl <;> simp [digitalRead, HIGH, LOW]

/-- Witness of C1: the line `01:0` on an idle board. -/
theorem loop_setState_confirms_witness :
    digitalRead 2 (loop (fun _ => 0) (idleWorld (strBytes "01:0\n"))) = HIGH ∧
      (loop (fun _ => 0) (idleWorld (strBytes "01:0\n"))).net =
        strBytes "Node 01:0: Now Fenced!\n" :=
  loop_setState_confirms (fun _ => 0) (idleWorld (strBytes "01:0\n")) 1 0 [10] rfl
    (by decide) (by decide) rfl rfl

/-- Frame of a cycle, in terms of what the read loop captured: for every input stream
of bytes and every pin configuration, one cycle either leaves every pin level as it
was, or the first four bytes are `DD:S` (two digits, a colon, a digit '0' or '1') with
`1 ≤ DD ≤ NODECOUNT` and the read stopped right after them (end of data, `CR`, `LF`, or
a byte `0xFF`), and then every pin other than `FIRSTNODEPIN + DD - 1` keeps its
level. -/
theorem loop_pins_frame (command0 : Nat → Int) (w : World)
    (hb : ∀ b ∈ w.rx, b < 256) :
    (loop command0 w).pins = w.pins ∨
      ∃ d0 d1 s rest, w.client = true ∧ w.rx = d0 :: d1 :: 58 :: s :: rest ∧
        readStops rest = true ∧ digitByte d0 ∧ digitByte d1 ∧ (s = 48 ∨ s = 49) ∧
        1 ≤ nodeId d0 d1 ∧ nodeId d0 d1 ≤ NODECOUNT ∧
        ∀ p, p ≠ FIRSTNODEPIN + nodeId d0 d1 - 1 → (loop command0 w).pins p = w.pins p := by
  cases hc : w.client with
  | false => left; rw [loop_noClient command0 w hc]
  | true =>
    rcases readLoop_cases w.rx command0 with h | h | ⟨b0, b1, b2, b3, rest, hrx, p0, p1, p2, p3, hend⟩
    · left
      simp only [loop, hc, if_true]
      split_ifs <;> rfl
    · left
      simp only [loop, hc, if_true]
      split_ifs <;> first | rfl | omega
    · rw [loop_four command0 w b0 b1 b2 b3 rest hc hrx p0 p1 p2 p3 hend]
      have hb0 : b0 < 256 := hb b0 (by simp [hrx])
      have hb1 : b1 < 256 := hb b1 (by simp [hrx])
      have hb2 : b2 < 256 := hb b2 (by simp [hrx])
      have hb3 : b3 < 256 := hb b3 (by simp [hrx])
      by_cases hbad : readChar b2 ≠ 58 ∨ isdigit (readChar b0) = false ∨
          isdigit (readChar b1) = false ∨ isdigit (readChar b3) = false
      · left
        rw [execute_bad command0 _ _ _ _ _ _ hbad]
        rfl
      · simp only [not_or, not_not, Bool.not_eq_false, isdigit_readChar, Bool.and_eq_true,
          decide_eq_true_eq] at hbad
        obtain ⟨e2, g0, g1, g3⟩ := hbad
        have e2 := (readChar_eq_colon b2).mp e2
        have hc2 : b2 = 58 := by omega
        have d0 : digitByte b0 := by unfold digitByte; omega
        have d1 : digitByte b1 := by unfold digitByte; omega
        have d3 : digitByte b3 := by unfold digitByte; omega
        subst hc2
        rcases execute_digits_pins command0 { w with rx := rest.tail } b0 b1 b3 (lastChar rest)
          d0 d1 d3 with h | ⟨hs, hlo, hhi, hfr⟩
        · left; exact h
        · right
          exact ⟨b0, b1, b3, rest, rfl, hrx, hend, d0, d1, hs, hlo, hhi, hfr⟩

/-- The frame of a cycle at the stream `01:0`, line feed, on an idle board. -/
theorem loop_pins_frame_witness :
    (loop (fun _ => 0) (idleWorld (strBytes "01:0\n"))).pins =
        (idleWorld (strBytes "01:0\n")).pins ∨
      ∃ d0 d1 s rest, (idleWorld (strBytes "01:0\n")).client = true ∧
        (idleWorld (strBytes "01:0\n")).rx = d0 :: d1 :: 58 :: s :: rest ∧
        readStops rest = true ∧ digitByte d0 ∧ digitByte d1 ∧ (s = 48 ∨ s = 49) ∧
        1 ≤ nodeId d0 d1 ∧ nodeId d0 d1 ≤ NODECOUNT ∧
        ∀ p, p ≠ FIRSTNODEPIN + nodeId d0 d1 - 1 →
          (loop (fun _ => 0) (idleWorld (strBytes "01:0\n"))).pins p =
            (idleWorld (strBytes "01:0\n")).pins p :=
  loop_pins_frame (fun _ => 0) (idleWorld (strBytes "01:0\n")) (by decide)

/-- C2 at the failing input: the five-byte line `01:0`, `0xFF`, followed by a line
feed.  What follows the four bytes `01:0` is neither the end of the data nor `CR` nor
`LF`, so the line is not `DD:S` but a line that is too long; all the same the fifth
byte narrows to the `char` `-1`, the read loop stops with `index = 4`, and the cycle
drives pin 2 from low to high. -/
theorem pin_changes_on_five_byte_line :
    lineEnd [255, 10] = false ∧
      (idleWorld ([48, 49, 58, 48] ++ [255, 10])).pins 2 = false ∧
      (loop (fun _ => 0) (idleWorld ([48, 49, 58, 48] ++ [255, 10]))).pins 2 = true ∧
      (loop (fun _ => 0) (idleWorld ([48, 49, 58, 48] ++ [255, 10]))).pins ≠
        (idleWorld ([48, 49, 58, 48] ++ [255, 10])).pins := by
  refine ⟨by decide, by decide, by decide, ?_⟩
  intro h
  have h2 := congrFun h 2
  revert h2
  decide

/-- C3: for every pin configuration, node id `n` in `1 .. NODECOUNT` and state `s`, a
cycle on the set line for `(n, s)` followed by a cycle on `00:0` sends a status
report whose line for `n` says `Running` when `s = 1` and `Fenced!` when `s = 0`, and
whose line for every other node is the line that a query before the set line
reports. -/
theorem setState_then_query (c1 c2 c3 : Nat → Int) (w : World) (n s : Nat)
    (rest rest1 rest2 : List Nat) (hc : w.client = true) (hn : 1 ≤ n ∧ n ≤ NODECOUNT)
    (hs : s = 0 ∨ s = 1)
    (hrx : w.rx = [48 + n / 10, 48 + n % 10, 58, 48 + s] ++ rest)
    (hend : lineEnd rest = true) (hend1 : lineEnd rest1 = true)
    (hend2 : lineEnd rest2 = true) :
    (loop c2 { loop c1 w with rx := [48, 48, 58, 48] ++ rest1 }).net =
        (loop c1 w).net ++
          statusReport (fun m => if m = n then decide (s = 1) else runningAt w.pins m) ∧
      (loop c3 { w with rx := [48, 48, 58, 48] ++ rest2 }).net =
        w.net ++ statusReport (runningAt w.pins) := by
  unfold NODECOUNT at hn
  have h0 : digitByte (48 + n / 10) := by unfold digitByte; omega
  have h1 : digitByte (48 + n % 10) := by unfold digitByte; omega
  have h3 : digitByte (48 + s) := by unfold digitByte; omega
  have hid : 10 * (48 + n / 10 - 48) + (48 + n % 10 - 48) = n := by omega
  have hq : ∀ (c : Nat → Int) (v : World) (r : List Nat), v.client = true →
      lineEnd r = true → v.rx = [48, 48, 58, 48] ++ r →
      (loop c v).net = v.net ++ statusReport (runningAt v.pins) := by
    intro c v r hvc hr hv
    rw [loop_digits c v 48 48 48 r hvc hv (by decide) (by decide) (by decide)
      (lineEnd_readStops _ hr), execute_query _ _ _ _ (Or.inl rfl)]
  have hset := loop_digits c1 w _ _ _ rest hc hrx h0 h1 h3 (lineEnd_readStops _ hend)
  rw [execute_set _ _ _ _ _ _ h0 h1 (by omega) (by unfold NODECOUNT; omega), hid] at hset
  refine ⟨?_, hq c3 _ rest2 hc hend2 rfl⟩
  rw [hq c2 _ rest1 (by rw [hset]; exact hc) hend1 rfl]
  congr 1
  have hpins : (loop c1 w).pins =
      fun p => if p = FIRSTNODEPIN + n - 1 then decide (48 + s = 48) else w.pins p := by
    rw [hset]
  show statusReport (runningAt (loop c1 w).pins) = _
  rw [hpins]
  unfold statusReport
  congr 3
  apply List.map_congr_left
  intro i hi
  have hi : i < 5 := by simpa [NODECOUNT] using hi
  congr 1
  unfold runningAt FIRSTNODEPIN
  by_cases e : i + 1 = n
  · subst e
    rcases hs with rfl | rfl <;> simp
  · have hne : ¬ (2 + (i + 1) - 1 = 2 + n - 1) := by omega
    simp only [if_neg hne, if_neg e]

/-- Witness of C3: fencing node 1 on an idle board, then querying. -/
theorem setState_then_query_witness :
    (loop (fun _ => 0) { loop (fun _ => 0) (idleWorld (strBytes "01:0\n")) with
        rx := [48, 48, 58, 48] ++ [10] }).net =
        (loop (fun _ => 0) (idleWorld (strBytes "01:0\n"))).net ++
          statusReport (fun m => if m = 1 then decide (0 = 1)
            else runningAt (idleWorld (strBytes "01:0\n")).pins m) ∧
      (loop (fun _ => 0) { idleWorld (strBytes "01:0\n") with
        rx := [48, 48, 58, 48] ++ [10] }).net =
        (idleWorld (strBytes "01:0\n")).net ++
          statusReport (runningAt (idleWorld (strBytes "01:0\n")).pins) :=
  setState_then_query (fun _ => 0) (fun _ => 0) (fun _ => 0) (idleWorld (strBytes "01:0\n"))
    1 0 [10] [10] [10] rfl (by decide) (by decide) rfl rfl rfl rfl

/-- C4: for every pin configuration, one cycle on the line `00:0` sends exactly the
header `Node states: `, the line `- Max Node: 05`, then for `n = 1, ..., NODECOUNT` in
ascending order `- Node DD: Running` when pin `FIRSTNODEPIN + n - 1` is low and
`- Node DD: Fenced!` otherwise, then `End Message.`, and nothing else. -/
theorem loop_query_report (command0 : Nat → Int) (w : World) (rest : List Nat)
    (hc : w.client = true) (hrx : w.rx = [48, 48, 58, 48] ++ rest)
    (hend : lineEnd rest = true) :
    (loop command0 w).net = w.net ++ statusReport (runningAt w.pins) := by
  rw [loop_digits command0 w 48 48 48 rest hc hrx (by decide) (by decide) (by decide)
    (lineEnd_readStops _ hend), execute_query _ _ _ _ (Or.inl rfl)]

/-- Witness of C4: the query on a board whose pins are all low. -/
theorem loop_query_report_witness :
    (loop (fun _ => 0) (idleWorld (strBytes "00:0\n"))).net =
      (idleWorld (strBytes "00:0\n")).net ++
        statusReport (runningAt (idleWorld (strBytes "00:0\n")).pins) :=
  loop_query_report (fun _ => 0) (idleWorld (strBytes "00:0\n")) [10] rfl rfl rfl

/-- C5: for every line `DD:S` with `S` in '0', '1': when `DD` exceeds `NODECOUNT` the
response is exactly `This fence only supports up to 05nodes.` and no pin changes; when
`DD` equals `NODECOUNT` the line is carried out as a set command on the last pin,
`FIRSTNODEPIN + NODECOUNT - 1`. -/
theorem loop_node_boundary (command0 : Nat → Int) (w : World) (d0 d1 s : Nat)
    (rest : List Nat) (hc : w.client = true)
    (hrx : w.rx = [d0, d1, 58, s] ++ rest) (hend : lineEnd rest = true)
    (h0 : digitByte d0) (h1 : digitByte d1) (hs : s = 48 ∨ s = 49) :
    (NODECOUNT < nodeId d0 d1 →
        (loop command0 w).net =
          w.net ++ strBytes "This fence only supports up to 05nodes.\n" ∧
        (loop command0 w).pins = w.pins) ∧
      (nodeId d0 d1 = NODECOUNT →
        (loop command0 w).net =
          w.net ++ (strBytes "Node " ++ [d0, d1, 58, s] ++
            strBytes (if s = 49 then ": Now running.\n" else ": Now Fenced!\n")) ∧
        (loop command0 w).pins =
          fun p => if p = FIRSTNODEPIN + NODECOUNT - 1 then decide (s = 48) else w.pins p) := by
  have h3 : digitByte s := by unfold digitByte; omega
  rw [loop_digits command0 w d0 d1 s rest hc hrx h0 h1 h3 (lineEnd_readStops _ hend)]
  unfold nodeId
  constructor
  · intro hgt
    rw [execute_nodeRange _ _ _ _ _ _ h0 h1 h3 hgt]
    exact ⟨rfl, rfl⟩
  · intro heq
    rw [execute_set _ _ _ _ _ _ h0 h1 hs ⟨by unfold NODECOUNT at heq; omega, by omega⟩, heq]
    exact ⟨rfl, rfl⟩

/-- Witness of C5: the line `06:0` on an idle board. -/
theorem loop_node_boundary_witness :
    (NODECOUNT < nodeId 48 54 →
        (loop (fun _ => 0) (idleWorld (strBytes "06:0\n"))).net =
          (idleWorld (strBytes "06:0\n")).net ++
            strBytes "This fence only supports up to 05nodes.\n" ∧
        (loop (fun _ => 0) (idleWorld (strBytes "06:0\n"))).pins =
          (idleWorld (strBytes "06:0\n")).pins) ∧
      (nodeId 48 54 = NODECOUNT →
        (loop (fun _ => 0) (idleWorld (strBytes "06:0\n"))).net =
          (idleWorld (strBytes "06:0\n")).net ++ (strBytes "Node " ++ [48, 54, 58, 48] ++
            strBytes (if 48 = 49 then ": Now running.\n" else ": Now Fenced!\n")) ∧
        (loop (fun _ => 0) (idleWorld (strBytes "06:0\n"))).pins =
          fun p => if p = FIRSTNODEPIN + NODECOUNT - 1 then decide (48 = 48)
            else (idleWorld (strBytes "06:0\n")).pins p) :=
  loop_node_boundary (fun _ => 0) (idleWorld (strBytes "06:0\n")) 48 54 48 [10] rfl rfl rfl
    (by decide) (by decide) (by decide)

/-- Counterexample to C6 as stated: on `06:2` the node id is tested first, and the
response is the node-range message, not the state-range message. -/
theorem state_range_after_node_range :
    (loop (fun _ => 0) (idleWorld (strBytes "06:2\n"))).net =
        strBytes "This fence only supports up to 05nodes.\n" ∧
      (loop (fun _ => 0) (idleWorld (strBytes "06:2\n"))).net ≠
        strBytes "Invalid state received. Send 'XX:0' to kill a node, XX:1 to release a node\n" := by
  decide

/-- C6, amended: for every line `DD:S` of three digits and a colon whose state digit is
in '2' .. '9' and whose node id `DD` is at most `NODECOUNT`, the response is exactly
the state-range message and no pin changes; for `S` in '0', '1' the response is never
the state-range message. -/
theorem loop_state_range (command0 : Nat → Int) (w : World) (d0 d1 s : Nat)
    (rest : List Nat) (hc : w.client = true)
    (hrx : w.rx = [d0, d1, 58, s] ++ rest) (hend : lineEnd rest = true)
    (h0 : digitByte d0) (h1 : digitByte d1) (h3 : digitByte s) :
    (50 ≤ s → nodeId d0 d1 ≤ NODECOUNT →
        (loop command0 w).net = w.net ++ strBytes
          "Invalid state received. Send 'XX:0' to kill a node, XX:1 to release a node\n" ∧
        (loop command0 w).pins = w.pins) ∧
      (s = 48 ∨ s = 49 →
        (loop command0 w).net ≠ w.net ++ strBytes
          "Invalid state received. Send 'XX:0' to kill a node, XX:1 to release a node\n") := by
  rw [loop_digits command0 w d0 d1 s rest hc hrx h0 h1 h3 (lineEnd_readStops _ hend)]
  have hinv : strBytes
      "Invalid state received. Send 'XX:0' to kill a node, XX:1 to release a node\n" =
      73 :: strBytes
        "nvalid state received. Send 'XX:0' to kill a node, XX:1 to release a node\n" := by
    decide
  unfold nodeId
  constructor
  · intro hs hn
    rw [execute_stateRange _ _ _ _ _ _ h0 h1 ⟨hs, h3.2⟩ hn]
    exact ⟨rfl, rfl⟩
  · intro hs
    rw [hinv]
    by_cases hgt : NODECOUNT < 10 * (d0 - 48) + (d1 - 48)
    · rw [execute_nodeRange _ _ _ _ _ _ h0 h1 h3 hgt]
      have hm : strBytes "This fence only supports up to 05nodes.\n" =
          84 :: strBytes "his fence only supports up to 05nodes.\n" := by decide
      intro h
      have h := List.append_cancel_left h
      rw [hm] at h
      exact absurd (List.cons.inj h).1 (by decide)
    by_cases hz : 10 * (d0 - 48) + (d1 - 48) = 0
    · have e0 : d0 = 48 := by unfold digitByte at h0 h1; omega
      have e1 : d1 = 48 := by unfold digitByte at h0 h1; omega
      subst e0 e1
      rw [execute_query _ _ _ _ hs]
      obtain ⟨tl, htl⟩ := statusReport_head (runningAt w.pins)
      intro h
      have h := List.append_cancel_left h
      rw [htl] at h
      exact absurd (List.cons.inj h).1 (by decide)
    · rw [execute_set _ _ _ _ _ _ h0 h1 hs ⟨by omega, by omega⟩]
      have hm : strBytes "Node " = 78 :: strBytes "ode " := by decide
      intro h
      have h := List.append_cancel_left h
      rw [hm] at h
      exact absurd (List.cons.inj h).1 (by decide)

/-- Witness of the amended C6: the line `01:2` on an idle board. -/
theorem loop_state_range_witness :
    (50 ≤ 50 → nodeId 48 49 ≤ NODECOUNT →
        (loop (fun _ => 0) (idleWorld (strBytes "01:2\n"))).net =
          (idleWorld (strBytes "01:2\n")).net ++ strBytes
            "Invalid state received. Send 'XX:0' to kill a node, XX:1 to release a node\n" ∧
        (loop (fun _ => 0) (idleWorld (strBytes "01:2\n"))).pins =
          (idleWorld (strBytes "01:2\n")).pins) ∧
      (50 = 48 ∨ 50 = 49 →
        (loop (fun _ => 0) (idleWorld (strBytes "01:2\n"))).net ≠
          (idleWorld (strBytes "01:2\n")).net ++ strBytes
            "Invalid state received. Send 'XX:0' to kill a node, XX:1 to release a node\n") :=
  loop_state_range (fun _ => 0) (idleWorld (strBytes "01:2\n")) 48 49 50 [10] rfl rfl rfl
    (by decide) (by decide) (by decide)

/-- Counterexample to C7 as stated: `00:2` is answered with the state-range message,
not with the status report that `00:0` gets. -/
theorem query_digit_not_ignored :
    (loop (fun _ => 0) (idleWorld (strBytes "00:2\n"))).net =
        strBytes "Invalid state received. Send 'XX:0' to kill a node, XX:1 to release a node\n" ∧
      (loop (fun _ => 0) (idleWorld (strBytes "00:2\n"))).net ≠
        (loop (fun _ => 0) (idleWorld (strBytes "00:0\n"))).net := by
  decide

/-- C7, amended: for `S` in '0', '1' the line `00:S` is a status query: one cycle on it
sends the status report, the same as a cycle on `00:0` from the same board. -/
theorem loop_query_digit (c c0 : Nat → Int) (w : World) (s : Nat) (rest rest0 : List Nat)
    (hc : w.client = true) (hs : s = 48 ∨ s = 49)
    (hrx : w.rx = [48, 48, 58, s] ++ rest) (hend : lineEnd rest = true)
    (hend0 : lineEnd rest0 = true) :
    (loop c w).net = w.net ++ statusReport (runningAt w.pins) ∧
      (loop c w).net = (loop c0 { w with rx := [48, 48, 58, 48] ++ rest0 }).net := by
  have h3 : digitByte s := by unfold digitByte; omega
  rw [loop_digits c w 48 48 s rest hc hrx (by decide) (by decide) h3 (lineEnd_readStops _ hend),
    execute_query _ _ _ _ hs,
    loop_digits c0 { w with rx := [48, 48, 58, 48] ++ rest0 } 48 48 48 rest0 hc rfl (by decide)
      (by decide) (by decide) (lineEnd_readStops _ hend0),
    execute_query _ _ _ _ (Or.inl rfl)]
  exact ⟨rfl, rfl⟩

/-- Witness of the amended C7: the line `00:1` on an idle board. -/
theorem loop_query_digit_witness :
    (loop (fun _ => 0) (idleWorld (strBytes "00:1\n"))).net =
        (idleWorld (strBytes "00:1\n")).net ++
          statusReport (runningAt (idleWorld (strBytes "00:1\n")).pins) ∧
      (loop (fun _ => 0) (idleWorld (strBytes "00:1\n"))).net =
        (loop (fun _ => 0)
          { idleWorld (strBytes "00:1\n") with rx := [48, 48, 58, 48] ++ [10] }).net :=
  loop_query_digit (fun _ => 0) (fun _ => 0) (idleWorld (strBytes "00:1\n")) 49 [10] [10] rfl
    (by decide) rfl rfl rfl

/-- Counterexample to C8 as stated: a line with a `NUL` byte at position 0 is
answered with `Bad command: []`, without the four input bytes. -/
theorem bad_command_stops_at_nul :
    (loop (fun _ => 0) (idleWorld [0, 98, 58, 49, 10])).net = strBytes "Bad command: []\n" ∧
      (loop (fun _ => 0) (idleWorld [0, 98, 58, 49, 10])).net ≠
        strBytes "Bad command: [" ++ [0, 98, 58, 49] ++ strBytes "]\n" := by
  decide

/-- C8, amended: for every line of four bytes, none of them `CR`, `LF` or `0xFF`, that
has a byte other than ':' at position 2 or a non-digit at position 0, 1 or 3, the
response is exactly `Bad command: [`, the input bytes that come before the first `NUL`
byte (all four when none is `NUL`), and `]`, and no pin changes. -/
theorem loop_bad_command (command0 : Nat → Int) (w : World) (b0 b1 b2 b3 : Nat)
    (rest : List Nat) (hc : w.client = true)
    (hrx : w.rx = [b0, b1, b2, b3] ++ rest) (hend : lineEnd rest = true)
    (hbytes : ∀ b ∈ [b0, b1, b2, b3], b < 255 ∧ b ≠ 10 ∧ b ≠ 13)
    (hbad : b2 ≠ 58 ∨ ¬ digitByte b0 ∨ ¬ digitByte b1 ∨ ¬ digitByte b3) :
    (loop command0 w).net =
        w.net ++ (strBytes "Bad command: [" ++
          [b0, b1, b2, b3].takeWhile (fun b => b != 0) ++ strBytes "]\n") ∧
      (loop command0 w).pins = w.pins ∧
      ((∀ b ∈ [b0, b1, b2, b3], b ≠ 0) →
        (loop command0 w).net =
          w.net ++ (strBytes "Bad command: [" ++ [b0, b1, b2, b3] ++ strBytes "]\n")) := by
  have hb0 := hbytes b0 (by simp)
  have hb1 := hbytes b1 (by simp)
  have hb2 := hbytes b2 (by simp)
  have hb3 := hbytes b3 (by simp)
  have hchars : readChar b2 ≠ 58 ∨ isdigit (readChar b0) = false ∨
      isdigit (readChar b1) = false ∨ isdigit (readChar b3) = false := by
    unfold digitByte at hbad
    rcases hbad with h | h | h | h
    · left
      intro e
      have := (readChar_eq_colon b2).mp e
      omega
    · right; left
      rw [isdigit_readChar, Bool.and_eq_false_iff, decide_eq_false_iff_not,
        decide_eq_false_iff_not]
      omega
    · right; right; left
      rw [isdigit_readChar, Bool.and_eq_false_iff, decide_eq_false_iff_not,
        decide_eq_false_iff_not]
      omega
    · right; right; right
      rw [isdigit_readChar, Bool.and_eq_false_iff, decide_eq_false_iff_not,
        decide_eq_false_iff_not]
      omega
  have htext := cstr_readChar [b0, b1, b2, b3] (fun b hb => by have := hbytes b hb; omega)
  simp only [List.map_cons, List.map_nil, List.cons_append, List.nil_append] at htext
  have hopen : (lit "Bad command: [").map charByte = strBytes "Bad command: [" :=
    map_charByte_lit _ (by decide)
  have hclose : (lit "]\n").map charByte = strBytes "]\n" := map_charByte_lit _ (by decide)
  have hnet : (loop command0 w).net =
      w.net ++ (strBytes "Bad command: [" ++
        [b0, b1, b2, b3].takeWhile (fun b => b != 0) ++ strBytes "]\n") := by
    rw [loop_four command0 w b0 b1 b2 b3 rest hc hrx (plain_of_byte _ hb0) (plain_of_byte _ hb1)
      (plain_of_byte _ hb2) (plain_of_byte _ hb3) (lineEnd_readStops _ hend),
      execute_bad command0 _ _ _ _ _ _ hchars]
    simp only [printError, printMessage, hopen, hclose, htext, List.append_assoc]
  refine ⟨hnet, ?_, ?_⟩
  · rw [loop_four command0 w b0 b1 b2 b3 rest hc hrx (plain_of_byte _ hb0) (plain_of_byte _ hb1)
      (plain_of_byte _ hb2) (plain_of_byte _ hb3) (lineEnd_readStops _ hend),
      execute_bad command0 _ _ _ _ _ _ hchars]
    rfl
  · intro hnz
    have hall : [b0, b1, b2, b3].takeWhile (fun b => b != 0) = [b0, b1, b2, b3] := by
      rw [List.takeWhile_eq_self_iff]
      intro b hb
      simpa using hnz b hb
    rw [hnet, hall]

/-- Witness of the amended C8: the line `ab:1` gives `Bad command: [ab:1]`. -/
theorem loop_bad_command_witness :
    (loop (fun _ => 0) (idleWorld (strBytes "ab:1\n"))).net =
        (idleWorld (strBytes "ab:1\n")).net ++ (strBytes "Bad command: [" ++
          [97, 98, 58, 49].takeWhile (fun b => b != 0) ++ strBytes "]\n") ∧
      (loop (fun _ => 0) (idleWorld (strBytes "ab:1\n"))).pins =
        (idleWorld (strBytes "ab:1\n")).pins ∧
      ((∀ b ∈ [97, 98, 58, 49], b ≠ 0) →
        (loop (fun _ => 0) (idleWorld (strBytes "ab:1\n"))).net =
          (idleWorld (strBytes "ab:1\n")).net ++
            (strBytes "Bad command: [" ++ [97, 98, 58, 49] ++ strBytes "]\n")) :=
  loop_bad_command (fun _ => 0) (idleWorld (strBytes "ab:1\n")) 97 98 58 49 [10] rfl rfl rfl
    (by decide) (by decide)

/-- C9 at the failing input: the one-byte line `0xFF` followed by a line feed.  The
byte narrows to the `char` `-1`, the read loop takes it for "no data", and the cycle
ends with `index = 0`: nothing is sent and the line feed stays unread. -/
theorem short_line_ff_is_silent :
    (loop (fun _ => 0) (idleWorld [255, 10])).net = [] ∧
      (loop (fun _ => 0) (idleWorld [255, 10])).serial = [] ∧
      (loop (fun _ => 0) (idleWorld [255, 10])).rx = [10] ∧
      (readLoop [255, 10] (fun _ => 0) 0 []).index = 0 := by
  decide

/-- C10 at the failing input: the five-byte line `01:0`, `0xFF`, followed by a line
feed.  The fifth byte narrows to the `char` `-1`, the read loop stops with
`index = 4`, and the cycle fences node 1 instead of answering "too long". -/
theorem long_line_ff_is_executed :
    (loop (fun _ => 0) (idleWorld [48, 49, 58, 48, 255, 10])).net =
        strBytes "Node 01:0: Now Fenced!\n" ∧
      (idleWorld [48, 49, 58, 48, 255, 10]).pins 2 = false ∧
      (loop (fun _ => 0) (idleWorld [48, 49, 58, 48, 255, 10])).pins 2 = true ∧
      (readLoop [48, 49, 58, 48, 255, 10] (fun _ => 0) 0 []).index = 4 := by
  decide

/-! ## The claims, continued -/

/-- C12: for every pin configuration, when the first read of a cycle finds no data,
or a `CR` or `LF` byte, the cycle sends nothing, neither to the network nor to the
serial port, and changes no pin. -/
theorem loop_idle_silent (command0 : Nat → Int) (w : World)
    (hend : lineEnd w.rx = true) :
    (loop command0 w).net = w.net ∧ (loop command0 w).serial = w.serial ∧
      (loop command0 w).pins = w.pins := by
  cases hc : w.client with
  | false => rw [loop_noClient command0 w hc]; exact ⟨rfl, rfl, rfl⟩
  | true =>
    rw [loop_empty command0 w hc (lineEnd_readStops _ hend)]
    exact ⟨rfl, rfl, rfl⟩

/-- Witness of C12: a lone line feed on an idle board. -/
theorem loop_idle_silent_witness :
    (loop (fun _ => 0) (idleWorld [10])).net = (idleWorld [10]).net ∧
      (loop (fun _ => 0) (idleWorld [10])).serial = (idleWorld [10]).serial ∧
      (loop (fun _ => 0) (idleWorld [10])).pins = (idleWorld [10]).pins :=
  loop_idle_silent (fun _ => 0) (idleWorld [10]) rfl

/-- C13: for every pin configuration, node id `n` in `1 .. NODECOUNT` and state `s`,
a second cycle on the set line for `(n, s)` leaves the pins as the first cycle left
them and sends the same response as the first cycle. -/
theorem setState_twice (c1 c2 : Nat → Int) (w : World) (n s : Nat)
    (rest rest1 : List Nat) (hc : w.client = true) (hn : 1 ≤ n ∧ n ≤ NODECOUNT)
    (hs : s = 0 ∨ s = 1)
    (hrx : w.rx = [48 + n / 10, 48 + n % 10, 58, 48 + s] ++ rest)
    (hend : lineEnd rest = true) (hend1 : lineEnd rest1 = true) :
    (loop c2 { loop c1 w with rx := [48 + n / 10, 48 + n % 10, 58, 48 + s] ++ rest1 }).pins =
        (loop c1 w).pins ∧
      (loop c1 w).net =
        w.net ++ (strBytes "Node " ++ [48 + n / 10, 48 + n % 10, 58, 48 + s] ++
          strBytes (if s = 0 then ": Now Fenced!\n" else ": Now running.\n")) ∧
      (loop c2 { loop c1 w with rx := [48 + n / 10, 48 + n % 10, 58, 48 + s] ++ rest1 }).net =
        (loop c1 w).net ++ (strBytes "Node " ++ [48 + n / 10, 48 + n % 10, 58, 48 + s] ++
          strBytes (if s = 0 then ": Now Fenced!\n" else ": Now running.\n")) := by
  unfold NODECOUNT at hn
  have h0 : digitByte (48 + n / 10) := by unfold digitByte; omega
  have h1 : digitByte (48 + n % 10) := by unfold digitByte; omega
  have h3 : digitByte (48 + s) := by unfold digitByte; omega
  have hs' : 48 + s = 48 ∨ 48 + s = 49 := by omega
  have hnode : 1 ≤ 10 * (48 + n / 10 - 48) + (48 + n % 10 - 48) ∧
      10 * (48 + n / 10 - 48) + (48 + n % 10 - 48) ≤ NODECOUNT := by
    unfold NODECOUNT; omega
  have hmsg : (if 48 + s = 49 then ": Now running.\n" else ": Now Fenced!\n") =
      (if s = 0 then ": Now Fenced!\n" else ": Now running.\n") := by
    rcases hs with rfl | rfl <;> rfl
  have hset := loop_digits c1 w _ _ _ rest hc hrx h0 h1 h3 (lineEnd_readStops _ hend)
  rw [execute_set _ _ _ _ _ _ h0 h1 hs' hnode, hmsg] at hset
  have hc1 : (loop c1 w).client = true := by rw [hset]; exact hc
  have hset2 := loop_digits c2
    { loop c1 w with rx := [48 + n / 10, 48 + n % 10, 58, 48 + s] ++ rest1 } _ _ _ rest1 hc1 rfl
    h0 h1 h3 (lineEnd_readStops _ hend1)
  rw [execute_set _ _ _ _ _ _ h0 h1 hs' hnode, hmsg] at hset2
  refine ⟨?_, by rw [hset], by rw [hset2]⟩
  rw [hset2]
  show (fun p => if p = FIRSTNODEPIN + (10 * (48 + n / 10 - 48) + (48 + n % 10 - 48)) - 1
    then decide (48 + s = 48) else (loop c1 w).pins p) = (loop c1 w).pins
  funext p
  by_cases hp : p = FIRSTNODEPIN + (10 * (48 + n / 10 - 48) + (48 + n % 10 - 48)) - 1
  · rw [if_pos hp, hset]
    simp [hp]
  · rw [if_neg hp]

/-- Witness of C13: fencing node 1 twice on an idle board. -/
theorem setState_twice_witness :
    (loop (fun _ => 0) { loop (fun _ => 0) (idleWorld (strBytes "01:0\n")) with
        rx := [48 + 1 / 10, 48 + 1 % 10, 58, 48 + 0] ++ [10] }).pins =
        (loop (fun _ => 0) (idleWorld (strBytes "01:0\n"))).pins ∧
      (loop (fun _ => 0) (idleWorld (strBytes "01:0\n"))).net =
        (idleWorld (strBytes "01:0\n")).net ++
          (strBytes "Node " ++ [48 + 1 / 10, 48 + 1 % 10, 58, 48 + 0] ++
            strBytes (if 0 = 0 then ": Now Fenced!\n" else ": Now running.\n")) ∧
      (loop (fun _ => 0) { loop (fun _ => 0) (idleWorld (strBytes "01:0\n")) with
        rx := [48 + 1 / 10, 48 + 1 % 10, 58, 48 + 0] ++ [10] }).net =
        (loop (fun _ => 0) (idleWorld (strBytes "01:0\n"))).net ++
          (strBytes "Node " ++ [48 + 1 / 10, 48 + 1 % 10, 58, 48 + 0] ++
            strBytes (if 0 = 0 then ": Now Fenced!\n" else ": Now running.\n")) :=
  setState_twice (fun _ => 0) (fun _ => 0) (idleWorld (strBytes "01:0\n")) 1 0 [10] [10] rfl
    (by decide) (by decide) rfl rfl rfl

theorem setup_pins (w : World) (p : Nat) :
    (setup w).pins p =
      if FIRSTNODEPIN ≤ p ∧ p < FIRSTNODEPIN + NODECOUNT then false else w.pins p := by
  have hr : List.range' FIRSTNODEPIN NODECOUNT = [2, 3, 4, 5, 6] := by decide
  rw [setup, hr]
  simp only [List.foldl_cons, List.foldl_nil, setupPin, digitalWrite, pinMode,
    serialPrintln, FIRSTNODEPIN, NODECOUNT, LOW]
  split_ifs <;> first | rfl | omega

theorem setup_mode (w : World) (p : Nat) :
    (setup w).mode p =
      if FIRSTNODEPIN ≤ p ∧ p < FIRSTNODEPIN + NODECOUNT then OUTPUT else w.mode p := by
  have hr : List.range' FIRSTNODEPIN NODECOUNT = [2, 3, 4, 5, 6] := by decide
  rw [setup, hr]
  simp only [List.foldl_cons, List.foldl_nil, setupPin, digitalWrite, pinMode,
    serialPrintln, FIRSTNODEPIN, NODECOUNT, LOW]
  split_ifs <;> first | rfl | omega

theorem setup_net (w : World) : (setup w).net = w.net := by
  have hr : List.range' FIRSTNODEPIN NODECOUNT = [2, 3, 4, 5, 6] := by decide
  rw [setup, hr]
  simp only [List.foldl_cons, List.foldl_nil, setupPin, digitalWrite, pinMode,
    serialPrintln]

/-- C14: after `setup()` each pin `FIRSTNODEPIN .. FIRSTNODEPIN + NODECOUNT - 1` is in
`OUTPUT` mode and reads `LOW`, every other pin keeps its mode and level, and a status
query processed as the first command reports every node `01 .. 05` as running. -/
theorem setup_all_running (command0 : Nat → Int) (w : World) (rest : List Nat)
    (hend : lineEnd rest = true) :
    (∀ p, FIRSTNODEPIN ≤ p ∧ p < FIRSTNODEPIN + NODECOUNT →
        (setup w).mode p = OUTPUT ∧ digitalRead p (setup w) = LOW) ∧
      (∀ p, ¬ (FIRSTNODEPIN ≤ p ∧ p < FIRSTNODEPIN + NODECOUNT) →
        (setup w).mode p = w.mode p ∧ (setup w).pins p = w.pins p) ∧
      (loop command0 { setup w with client := true, rx := [48, 48, 58, 48] ++ rest }).net =
        w.net ++ statusReport (fun _ => true) := by
  refine ⟨?_, ?_, ?_⟩
  · intro p hp
    rw [setup_mode, if_pos hp]
    unfold digitalRead
    rw [setup_pins, if_pos hp]
    exact ⟨rfl, rfl⟩
  · intro p hp
    rw [setup_mode, if_neg hp, setup_pins, if_neg hp]
    exact ⟨rfl, rfl⟩
  · rw [loop_digits command0 _ 48 48 48 rest rfl rfl (by decide) (by decide) (by decide)
      (lineEnd_readStops _ hend), execute_query _ _ _ _ (Or.inl rfl)]
    show (setup w).net ++ statusReport (runningAt (setup w).pins) = _
    rw [setup_net]
    rfl

/-- Witness of C14: `setup()` from a board whose pins were all high, then `00:0`. -/
theorem setup_all_running_witness :
    (∀ p, FIRSTNODEPIN ≤ p ∧ p < FIRSTNODEPIN + NODECOUNT →
        (setup { idleWorld [] with pins := fun _ => true }).mode p = OUTPUT ∧
          digitalRead p (setup { idleWorld [] with pins := fun _ => true }) = LOW) ∧
      (∀ p, ¬ (FIRSTNODEPIN ≤ p ∧ p < FIRSTNODEPIN + NODECOUNT) →
        (setup { idleWorld [] with pins := fun _ => true }).mode p =
            ({ idleWorld [] with pins := fun _ => true } : World).mode p ∧
          (setup { idleWorld [] with pins := fun _ => true }).pins p =
            ({ idleWorld [] with pins := fun _ => true } : World).pins p) ∧
      (loop (fun _ => 0) { setup { idleWorld [] with pins := fun _ => true } with
          client := true, rx := [48, 48, 58, 48] ++ [10] }).net =
        ({ idleWorld [] with pins := fun _ => true } : World).net ++
          statusReport (fun _ => true) :=
  setup_all_running (fun _ => 0) { idleWorld [] with pins := fun _ => true } [10] rfl

/-- Counterexample to C16 as stated: with all pins low the response to `00:0` has
eight line feeds, not six. -/
theorem status_block_not_six_lines :
    ((loop (fun _ => 0) (idleWorld (strBytes "00:0\n"))).net.count 10 = 8) ∧
      ((loop (fun _ => 0) (idleWorld (strBytes "00:0\n"))).net.count 10 ≠ 6) := by
  decide

/-- C16, amended: with the five node pins low, one cycle on `00:0` sends a status block
of exactly eight newline-terminated lines: the header, `- Max Node: 05`, the lines of
nodes `01` to `05`, all `Running`, and `End Message.` -/
theorem loop_query_all_running (command0 : Nat → Int) (w : World) (rest : List Nat)
    (hc : w.client = true) (hrx : w.rx = [48, 48, 58, 48] ++ rest)
    (hend : lineEnd rest = true)
    (hlow : ∀ p, FIRSTNODEPIN ≤ p ∧ p < FIRSTNODEPIN + NODECOUNT → w.pins p = false) :
    (loop command0 w).net = w.net ++ allRunningBlock ∧ allRunningBlock.count 10 = 8 := by
  refine ⟨?_, by decide⟩
  rw [loop_digits command0 w 48 48 48 rest hc hrx (by decide) (by decide) (by decide)
    (lineEnd_readStops _ hend), execute_query _ _ _ _ (Or.inl rfl)]
  show w.net ++ statusReport (runningAt w.pins) = _
  have hall : allRunningBlock = statusReport (fun _ => true) := by decide
  rw [hall]
  congr 1
  unfold statusReport
  congr 3
  apply List.map_congr_left
  intro i hi
  have hi : i < 5 := by simpa [NODECOUNT] using hi
  congr 1
  unfold runningAt
  rw [hlow _ (by unfold FIRSTNODEPIN NODECOUNT; omega)]
  rfl

/-- Witness of the amended C16: `00:0` on an idle board. -/
theorem loop_query_all_running_witness :
    (loop (fun _ => 0) (idleWorld (strBytes "00:0\n"))).net =
        (idleWorld (strBytes "00:0\n")).net ++ allRunningBlock ∧
      allRunningBlock.count 10 = 8 :=
  loop_query_all_running (fun _ => 0) (idleWorld (strBytes "00:0\n")) [10] rfl rfl rfl
    (fun _ _ => rfl)

theorem execute_set_pin (command0 : Nat → Int) (w : World) (c0 c1 c3 t : Int)
    (h0 : isdigit c0 = true) (h1 : isdigit c1 = true) (h3 : isdigit c3 = true)
    (hn : ¬ decodeNode c0 c1 > NODECOUNT) (hs : ¬ decodeState c3 > 1)
    (hz : ¬ 0 = decodeNode c0 c1) :
    (execute (lineBuffer command0 c0 c1 58 c3 t) 4 w).pins =
      (digitalWrite (setPin (decodeNode c0 c1)) (if 0 = decodeState c3 then HIGH else LOW)
        w).pins := by
  unfold decodeNode at hn hz
  unfold decodeState at hs
  simp only [execute, store, lineBuffer]
  simp only [Nat.reduceEqDiff, reduceIte, if_false, if_true, OfNat.zero_ne_ofNat, h0, h1, h3,
    bne_self_eq_false, Bool.not_true, Bool.or_self, Bool.false_eq_true]
  rw [if_neg hn, if_neg hs, if_neg hz]
  rfl

/-- C18: for decimal digit characters `c0`, `c1`, `c3` the `uint8_t` computation of
`node` gives `10 * d0 + d1`, at most `99`, with no step reduced modulo `256`, and
`state` is `d3`, at most `9`; for `1 ≤ node ≤ NODECOUNT` the pin written,
`(node - 1) + FIRSTNODEPIN`, lies in `FIRSTNODEPIN .. FIRSTNODEPIN + NODECOUNT - 1`. -/
theorem decode_no_wrap (c0 c1 c3 : Int) (h0 : isdigit c0 = true) (h1 : isdigit c1 = true)
    (h3 : isdigit c3 = true) :
    ((u8 (c0 - 48) : Nat) : Int) = c0 - 48 ∧
      ((u8 (((u8 (c0 - 48) : Nat) : Int) * 10) : Nat) : Int) = (c0 - 48) * 10 ∧
      ((decodeNode c0 c1 : Nat) : Int) = (c0 - 48) * 10 + (c1 - 48) ∧
      decodeNode c0 c1 ≤ 99 ∧
      ((decodeState c3 : Nat) : Int) = c3 - 48 ∧ decodeState c3 ≤ 9 ∧
      (1 ≤ decodeNode c0 c1 ∧ decodeNode c0 c1 ≤ NODECOUNT →
        setPin (decodeNode c0 c1) = decodeNode c0 c1 - 1 + FIRSTNODEPIN ∧
        FIRSTNODEPIN ≤ setPin (decodeNode c0 c1) ∧
        setPin (decodeNode c0 c1) ≤ FIRSTNODEPIN + NODECOUNT - 1) := by
  simp only [isdigit, Bool.and_eq_true, decide_eq_true_eq] at h0 h1 h3
  obtain ⟨d0, rfl⟩ : ∃ d0 : Nat, c0 = (d0 : Int) := ⟨c0.toNat, by omega⟩
  obtain ⟨d1, rfl⟩ : ∃ d1 : Nat, c1 = (d1 : Int) := ⟨c1.toNat, by omega⟩
  obtain ⟨d3, rfl⟩ : ∃ d3 : Nat, c3 = (d3 : Int) := ⟨c3.toNat, by omega⟩
  have g0 : 48 ≤ d0 ∧ d0 ≤ 57 := by omega
  have g1 : 48 ≤ d1 ∧ d1 ≤ 57 := by omega
  have g3 : 48 ≤ d3 ∧ d3 ≤ 57 := by omega
  have e1 : u8 ((d0 : Int) - 48) = d0 - 48 := state_decode d0 g0
  have e2 : u8 (((d0 - 48 : Nat) : Int) * 10) = (d0 - 48) * 10 := by unfold u8; omega
  have en : decodeNode (d0 : Int) (d1 : Int) = 10 * (d0 - 48) + (d1 - 48) :=
    node_decode d0 d1 g0 g1
  have es : decodeState (d3 : Int) = d3 - 48 := state_decode d3 g3
  rw [en, es, e1, e2]
  refine ⟨by omega, by omega, by omega, by omega, by omega, by omega, ?_⟩
  intro hn
  unfold NODECOUNT at hn
  have ep : setPin (10 * (d0 - 48) + (d1 - 48)) = 10 * (d0 - 48) + (d1 - 48) - 1 + FIRSTNODEPIN := by
    unfold setPin u8 FIRSTNODEPIN
    simp only []
    omega
  rw [ep]
  unfold FIRSTNODEPIN NODECOUNT
  omega

/-- Witness of C18: the characters of `05:1`. -/
theorem decode_no_wrap_witness :
    ((u8 (48 - 48) : Nat) : Int) = 48 - 48 ∧
      ((u8 (((u8 (48 - 48) : Nat) : Int) * 10) : Nat) : Int) = (48 - 48) * 10 ∧
      ((decodeNode 48 53 : Nat) : Int) = (48 - 48) * 10 + (53 - 48) ∧
      decodeNode 48 53 ≤ 99 ∧
      ((decodeState 49 : Nat) : Int) = 49 - 48 ∧ decodeState 49 ≤ 9 ∧
      (1 ≤ decodeNode 48 53 ∧ decodeNode 48 53 ≤ NODECOUNT →
        setPin (decodeNode 48 53) = decodeNode 48 53 - 1 + FIRSTNODEPIN ∧
        FIRSTNODEPIN ≤ setPin (decodeNode 48 53) ∧
        setPin (decodeNode 48 53) ≤ FIRSTNODEPIN + NODECOUNT - 1) :=
  decode_no_wrap 48 53 49 (by decide) (by decide) (by decide)

theorem execute_cells (x y : Nat → Int) (index : Nat) (w : World)
    (h0 : store x index 0 0 = store y index 0 0) (h1 : store x index 0 1 = store y index 0 1)
    (h2 : store x index 0 2 = store y index 0 2) (h3 : store x index 0 3 = store y index 0 3)
    (h4 : store x index 0 4 = store y index 0 4) :
    execute x index w = execute y index w := by
  simp only [execute, h0, h1, h2, h3, h4]

theorem execute_rx (command : Nat → Int) (index : Nat) (w : World) (r : List Nat) :
    execute command index { w with rx := r } = { execute command index w with rx := r } := by
  simp only [execute]
  split_ifs <;> rfl

theorem not_plain_readStops (b : Nat) (r : List Nat) (h : ¬ plain b = true) :
    readStops (b :: r) = true := by
  simp only [plain, Bool.and_eq_true, bne_iff_ne, ne_eq] at h
  simp only [readStops, Bool.or_eq_true, beq_iff_eq]
  omega

theorem loop_four_bytes_upto_rx (c1 c2 : Nat → Int) (w : World) (b0 b1 b2 b3 : Nat)
    (tail1 tail2 : List Nat) (hc : w.client = true)
    (h1 : readStops tail1 = true) (h2 : readStops tail2 = true) :
    ∃ r, loop c2 { w with rx := [b0, b1, b2, b3] ++ tail2 } =
      { loop c1 { w with rx := [b0, b1, b2, b3] ++ tail1 } with rx := r } := by
  by_cases p0 : plain b0 = true
  swap
  · have s1 := not_plain_readStops b0 ([b1, b2, b3] ++ tail1) p0
    have s2 := not_plain_readStops b0 ([b1, b2, b3] ++ tail2) p0
    rw [loop_empty c2 { w with rx := [b0, b1, b2, b3] ++ tail2 } hc s2,
      loop_empty c1 { w with rx := [b0, b1, b2, b3] ++ tail1 } hc s1]
    exact ⟨_, rfl⟩
  by_cases p1 : plain b1 = true
  swap
  · have s1 := not_plain_readStops b1 ([b2, b3] ++ tail1) p1
    have s2 := not_plain_readStops b1 ([b2, b3] ++ tail2) p1
    rw [loop_short c2 { w with rx := [b0, b1, b2, b3] ++ tail2 } [b0] _ hc rfl
        (by simpa using p0) (by simp) s2,
      loop_short c1 { w with rx := [b0, b1, b2, b3] ++ tail1 } [b0] _ hc rfl
        (by simpa using p0) (by simp) s1]
    exact ⟨_, rfl⟩
  by_cases p2 : plain b2 = true
  swap
  · have s1 := not_plain_readStops b2 ([b3] ++ tail1) p2
    have s2 := not_plain_readStops b2 ([b3] ++ tail2) p2
    rw [loop_short c2 { w with rx := [b0, b1, b2, b3] ++ tail2 } [b0, b1] _ hc rfl
        (by simpa using ⟨p0, p1⟩) (by simp) s2,
      loop_short c1 { w with rx := [b0, b1, b2, b3] ++ tail1 } [b0, b1] _ hc rfl
        (by simpa using ⟨p0, p1⟩) (by simp) s1]
    exact ⟨_, rfl⟩
  by_cases p3 : plain b3 = true
  swap
  · have s1 := not_plain_readStops b3 tail1 p3
    have s2 := not_plain_readStops b3 tail2 p3
    rw [loop_short c2 { w with rx := [b0, b1, b2, b3] ++ tail2 } [b0, b1, b2] _ hc rfl
        (by simpa using ⟨p0, p1, p2⟩) (by simp) s2,
      loop_short c1 { w with rx := [b0, b1, b2, b3] ++ tail1 } [b0, b1, b2] _ hc rfl
        (by simpa using ⟨p0, p1, p2⟩) (by simp) s1]
    exact ⟨_, rfl⟩
  rw [loop_four c2 { w with rx := [b0, b1, b2, b3] ++ tail2 } b0 b1 b2 b3 tail2 hc rfl
      p0 p1 p2 p3 h2,
    loop_four c1 { w with rx := [b0, b1, b2, b3] ++ tail1 } b0 b1 b2 b3 tail1 hc rfl
      p0 p1 p2 p3 h1]
  refine ⟨tail2.tail, ?_⟩
  show execute _ 4 { w with rx := tail2.tail } =
    { execute _ 4 { w with rx := tail1.tail } with rx := tail2.tail }
  rw [execute_rx _ 4 w tail2.tail, execute_rx _ 4 w tail1.tail,
    execute_cells (lineBuffer c2 (readChar b0) (readChar b1) (readChar b2) (readChar b3)
      (lastChar tail2)) (lineBuffer c1 (readChar b0) (readChar b1) (readChar b2) (readChar b3)
      (lastChar tail1)) 4 w rfl rfl rfl rfl rfl]

/-- C19: for every sequence of four bytes and every pin configuration, a cycle in which
the four bytes are followed by the end of the available data gives the same response
and the same pin levels as a cycle in which they are followed by `CR` or `LF`; in
particular a valid set line without terminator is carried out. -/
theorem unterminated_line_same (c1 c2 : Nat → Int) (w : World) (b0 b1 b2 b3 t : Nat)
    (rest : List Nat) (ht : t = 10 ∨ t = 13) :
    (loop c1 { w with rx := [b0, b1, b2, b3] }).net =
        (loop c2 { w with rx := [b0, b1, b2, b3] ++ t :: rest }).net ∧
      (loop c1 { w with rx := [b0, b1, b2, b3] }).pins =
        (loop c2 { w with rx := [b0, b1, b2, b3] ++ t :: rest }).pins ∧
      (w.client = true → digitByte b0 → digitByte b1 → b2 = 58 → b3 = 48 ∨ b3 = 49 →
        1 ≤ nodeId b0 b1 ∧ nodeId b0 b1 ≤ NODECOUNT →
        (loop c1 { w with rx := [b0, b1, b2, b3] }).pins =
          fun p => if p = FIRSTNODEPIN + nodeId b0 b1 - 1 then decide (b3 = 48)
            else w.pins p) := by
  have hstop : readStops (t :: rest) = true := by
    rcases ht with rfl | rfl <;> rfl
  refine ⟨?_, ?_, ?_⟩
  · by_cases hc : w.client = true
    · obtain ⟨r, h⟩ := loop_four_bytes_upto_rx c1 c2 w b0 b1 b2 b3 [] (t :: rest) hc rfl hstop
      rw [List.append_nil] at h
      rw [h]
    · have hc : w.client = false := by simpa using hc
      rw [loop_noClient c1 { w with rx := [b0, b1, b2, b3] } hc,
        loop_noClient c2 { w with rx := [b0, b1, b2, b3] ++ t :: rest } hc]
  · by_cases hc : w.client = true
    · obtain ⟨r, h⟩ := loop_four_bytes_upto_rx c1 c2 w b0 b1 b2 b3 [] (t :: rest) hc rfl hstop
      rw [List.append_nil] at h
      rw [h]
    · have hc : w.client = false := by simpa using hc
      rw [loop_noClient c1 { w with rx := [b0, b1, b2, b3] } hc,
        loop_noClient c2 { w with rx := [b0, b1, b2, b3] ++ t :: rest } hc]
  · intro hc h0 h1 h2 h3 hn
    subst h2
    have hd3 : digitByte b3 := by unfold digitByte; omega
    rw [loop_digits c1 { w with rx := [b0, b1, 58, b3] } b0 b1 b3 [] hc rfl h0 h1 hd3 rfl,
      execute_set _ _ _ _ _ _ h0 h1 h3 hn]
    rfl

/-- Witness of C19: `01:0` with and without a line feed on an idle board. -/
theorem unterminated_line_same_witness :
    (loop (fun _ => 0) { idleWorld [] with rx := [48, 49, 58, 48] }).net =
        (loop (fun _ => 0) { idleWorld [] with rx := [48, 49, 58, 48] ++ 10 :: [] }).net ∧
      (loop (fun _ => 0) { idleWorld [] with rx := [48, 49, 58, 48] }).pins =
        (loop (fun _ => 0) { idleWorld [] with rx := [48, 49, 58, 48] ++ 10 :: [] }).pins ∧
      ((idleWorld []).client = true → digitByte 48 → digitByte 49 → 58 = 58 →
        48 = 48 ∨ 48 = 49 → 1 ≤ nodeId 48 49 ∧ nodeId 48 49 ≤ NODECOUNT →
        (loop (fun _ => 0) { idleWorld [] with rx := [48, 49, 58, 48] }).pins =
          fun p => if p = FIRSTNODEPIN + nodeId 48 49 - 1 then decide (48 = 48)
            else (idleWorld []).pins p) :=
  unterminated_line_same (fun _ => 0) (fun _ => 0) (idleWorld []) 48 49 58 48 10 []
    (Or.inl rfl)

theorem drainLoop_line (line further : List Nat) (t : Nat)
    (hplain : ∀ b ∈ line, plain b = true) (ht : t = 10 ∨ t = 13) :
    drainLoop (line ++ t :: further) = further := by
  induction line with
  | nil =>
    rcases ht with rfl | rfl <;> rfl
  | cons b bs ih =>
    have hb : plain b = true := hplain b (List.mem_cons_self _ _)
    simp only [plain, Bool.and_eq_true, bne_iff_ne, ne_eq] at hb
    obtain ⟨⟨h1, h2⟩, h3⟩ := hb
    have n1 : ¬ (-1 : Int) = readChar b := fun h => h1 ((readChar_eq_neg_one b).mp h.symm)
    have n2 : ¬ (10 : Int) = readChar b := fun h => h2 ((readChar_eq_lf b).mp h.symm)
    have n3 : ¬ (13 : Int) = readChar b := fun h => h3 ((readChar_eq_cr b).mp h.symm)
    rw [List.cons_append]
    have hor : ¬ ((10 == readChar b || 13 == readChar b) = true) := by
      simp only [Bool.or_eq_true, beq_iff_eq, not_or]
      exact ⟨n2, n3⟩
    simp only [drainLoop, bne_iff_ne, ne_eq, n1, not_false_eq_true, if_true]
    rw [if_neg hor]
    exact ih (fun x hx => hplain x (List.mem_cons_of_mem _ hx))

theorem loop_long_five_rx (command0 : Nat → Int) (w : World) (line further : List Nat)
    (t : Nat) (hc : w.client = true) (hrx : w.rx = line ++ t :: further)
    (hplain : ∀ b ∈ line, plain b = true) (hlen : line.length = 5) :
    (loop command0 w).rx = drainLoop further := by
  rw [loop_long command0 w line (t :: further) hc hrx hplain hlen]
  rfl

theorem loop_long_six_rx (command0 : Nat → Int) (w : World) (line more further : List Nat)
    (b t : Nat) (hc : w.client = true) (hrx : w.rx = line ++ b :: (more ++ t :: further))
    (hplain : ∀ x ∈ line, plain x = true) (hlen : line.length = 5)
    (hmore : ∀ x ∈ more, plain x = true) (ht : t = 10 ∨ t = 13) :
    (loop command0 w).rx = further := by
  rw [loop_long_five_rx command0 w line (more ++ t :: further) b hc hrx hplain hlen,
    drainLoop_line more further t hmore ht]

theorem readLoop_overrun (line rest : List Nat) (command0 : Nat → Int)
    (hplain : ∀ b ∈ line, plain b = true) (hlen : line.length = 5) :
    5 ∈ (readLoop (line ++ rest) command0 0 []).stores := by
  obtain ⟨c1, s1, h1⟩ := readLoop_line line rest command0 0 [] hplain (by omega)
  rw [Nat.zero_add, hlen, readLoop_full] at h1
  rw [h1]
  simp

/-- C11 at the failing input: the five-byte line `010:1`, a line feed, then the line
`01:0` and a line feed.  The sixth evaluation of the read-loop condition consumes the
line feed, so the spool-off loop runs through the next line: after the cycle nothing
is pending, and the next cycle neither answers `01:0` nor touches pin 2. -/
theorem long_line_eats_next_line :
    (loop (fun _ => 0) (idleWorld (strBytes "010:1\n01:0\n"))).rx = [] ∧
      (loop (fun _ => 0) (idleWorld (strBytes "010:1\n01:0\n"))).net =
        strBytes "Message too long. Format is 'XX:Y' where 'XX' is the zero-padded node number and Y is the state to set.\n" ∧
      (loop (fun _ => 0) (loop (fun _ => 0) (idleWorld (strBytes "010:1\n01:0\n")))).net =
        (loop (fun _ => 0) (idleWorld (strBytes "010:1\n01:0\n"))).net ∧
      (loop (fun _ => 0) (loop (fun _ => 0) (idleWorld (strBytes "010:1\n01:0\n")))).pins 2 =
        false := by
  decide

/-- C20 at the failing input: on the five-byte line `010:1` and a line feed the read
loop stores at the indices `0, 1, 2, 3, 4` and then, in the sixth evaluation of its
condition, at index `5`, which is outside `char command[5]`. -/
theorem read_loop_stores_past_end :
    (readLoop (strBytes "010:1\n") (fun _ => 0) 0 []).stores = [0, 1, 2, 3, 4, 5] ∧
      ¬ (∀ i ∈ (readLoop (strBytes "010:1\n") (fun _ => 0) 0 []).stores, i ≤ 4) := by
  decide

theorem execute_client (command : Nat → Int) (index : Nat) (w : World) :
    (execute command index w).client = w.client := by
  simp only [execute]
  split_ifs <;> simp only [List.set, statusLoop_eq, printError, printMessage, digitalWrite]

theorem loop_crlf_plain (c1 c2 : Nat → Int) (w : World) (b0 b1 b2 b3 : Nat)
    (more : List Nat) (hc : w.client = true)
    (hrx : w.rx = [b0, b1, b2, b3] ++ 13 :: 10 :: more)
    (h0 : plain b0 = true) (h1 : plain b1 = true) (h2 : plain b2 = true)
    (h3 : plain b3 = true) :
    (loop c1 w).rx = 10 :: more ∧ loop c2 (loop c1 w) = { loop c1 w with rx := more } := by
  have hfirst := loop_four c1 w b0 b1 b2 b3 (13 :: 10 :: more) hc hrx h0 h1 h2 h3 rfl
  have hrx1 : (loop c1 w).rx = 10 :: more := by
    rw [hfirst]
    show (execute _ 4 { w with rx := 10 :: more }).rx = 10 :: more
    rw [execute_rx]
  have hc1 : (loop c1 w).client = true := by
    rw [hfirst, execute_client]
    exact hc
  refine ⟨hrx1, ?_⟩
  rw [loop_empty c2 (loop c1 w) hc1 (by rw [hrx1]; rfl), hrx1]
  rfl

/-- C17 at the failing input: the four-byte line `0xFF 1 : 0` followed by `CR LF`.
The first cycle takes the byte `0xFF` for "no data", consumes only that byte and
sends nothing; the second cycle reads `1:0` and the `CR` and answers "too short",
and the `LF` is still unread after the two cycles. -/
theorem crlf_line_ff_is_split :
    (loop (fun _ => 0) (idleWorld [255, 49, 58, 48, 13, 10])).net = [] ∧
      (loop (fun _ => 0) (idleWorld [255, 49, 58, 48, 13, 10])).rx = [49, 58, 48, 13, 10] ∧
      (loop (fun _ => 0) (loop (fun _ => 0) (idleWorld [255, 49, 58, 48, 13, 10]))).net =
        strBytes "Message too short. Format is 'XX:Y' where 'XX' is the zero-padded node number and Y is the state to set.\n" ∧
      (loop (fun _ => 0) (loop (fun _ => 0) (idleWorld [255, 49, 58, 48, 13, 10]))).rx =
        [10] := by
  decide

/-- Counterexample to C15 as stated: `06:0` and `01:2` are rejected with the node-range
and state-range messages, and the line `NUL b : 1` with `Bad command: []`; none of the
three responses is `Bad command: [` with the four raw bytes and `]`. -/
theorem rejection_not_always_bad_command :
    ((loop (fun _ => 0) (idleWorld (strBytes "06:0\n"))).net =
        strBytes "This fence only supports up to 05nodes.\n" ∧
      (loop (fun _ => 0) (idleWorld (strBytes "06:0\n"))).net ≠
        strBytes "Bad command: [06:0]\n") ∧
    ((loop (fun _ => 0) (idleWorld (strBytes "01:2\n"))).net =
        strBytes "Invalid state received. Send 'XX:0' to kill a node, XX:1 to release a node\n" ∧
      (loop (fun _ => 0) (idleWorld (strBytes "01:2\n"))).net ≠
        strBytes "Bad command: [01:2]\n") ∧
    (loop (fun _ => 0) (idleWorld [0, 98, 58, 49, 10])).net ≠
      strBytes "Bad command: [" ++ [0, 98, 58, 49] ++ strBytes "]\n" := by
  decide

/-- C15, amended: for every line of four bytes, none of them `NUL`, `CR`, `LF` or
`0xFF`: when it has no colon at position 2 or a non-digit at position 0, 1 or 3 the
response is `Bad command: [`, the four raw bytes, `]`; when its node id is out of
range the response is the node-range message, and when its node id is in range and
its state digit is out of range the response is the state-range message. -/
theorem loop_rejections (command0 : Nat → Int) (w : World) (b0 b1 b2 b3 : Nat)
    (rest : List Nat) (hc : w.client = true)
    (hrx : w.rx = [b0, b1, b2, b3] ++ rest) (hend : lineEnd rest = true)
    (hbytes : ∀ b ∈ [b0, b1, b2, b3], b < 255 ∧ b ≠ 0 ∧ b ≠ 10 ∧ b ≠ 13) :
    (b2 ≠ 58 ∨ ¬ digitByte b0 ∨ ¬ digitByte b1 ∨ ¬ digitByte b3 →
        (loop command0 w).net =
          w.net ++ (strBytes "Bad command: [" ++ [b0, b1, b2, b3] ++ strBytes "]\n")) ∧
      (b2 = 58 → digitByte b0 → digitByte b1 → digitByte b3 → NODECOUNT < nodeId b0 b1 →
        (loop command0 w).net =
          w.net ++ strBytes "This fence only supports up to 05nodes.\n") ∧
      (b2 = 58 → digitByte b0 → digitByte b1 → 50 ≤ b3 ∧ b3 ≤ 57 →
        nodeId b0 b1 ≤ NODECOUNT →
        (loop command0 w).net = w.net ++ strBytes
          "Invalid state received. Send 'XX:0' to kill a node, XX:1 to release a node\n") := by
  have hb0 := hbytes b0 (by simp)
  have hb1 := hbytes b1 (by simp)
  have hb2 := hbytes b2 (by simp)
  have hb3 := hbytes b3 (by simp)
  have hloop := loop_four command0 w b0 b1 b2 b3 rest hc hrx (plain_of_byte _ (by omega))
    (plain_of_byte _ (by omega)) (plain_of_byte _ (by omega)) (plain_of_byte _ (by omega))
    (lineEnd_readStops _ hend)
  refine ⟨?_, ?_, ?_⟩
  · intro hbad
    have hchars : readChar b2 ≠ 58 ∨ isdigit (readChar b0) = false ∨
        isdigit (readChar b1) = false ∨ isdigit (readChar b3) = false := by
      unfold digitByte at hbad
      rcases hbad with h | h | h | h
      · left
        intro e
        have := (readChar_eq_colon b2).mp e
        omega
      · right; left
        rw [isdigit_readChar, Bool.and_eq_false_iff, decide_eq_false_iff_not,
          decide_eq_false_iff_not]
        omega
      · right; right; left
        rw [isdigit_readChar, Bool.and_eq_false_iff, decide_eq_false_iff_not,
          decide_eq_false_iff_not]
        omega
      · right; right; right
        rw [isdigit_readChar, Bool.and_eq_false_iff, decide_eq_false_iff_not,
          decide_eq_false_iff_not]
        omega
    have hne : ∀ b, b < 255 ∧ b ≠ 0 ∧ b ≠ 10 ∧ b ≠ 13 → readChar b ≠ 0 := by
      intro b hb e
      have := (readChar_eq_zero b).mp e
      omega
    have hcb : ∀ b, b < 255 ∧ b ≠ 0 ∧ b ≠ 10 ∧ b ≠ 13 → charByte (readChar b) = b := by
      intro b hb
      rw [charByte_readChar]
      omega
    have hopen : (lit "Bad command: [").map charByte = strBytes "Bad command: [" :=
      map_charByte_lit _ (by decide)
    have hclose : (lit "]\n").map charByte = strBytes "]\n" := map_charByte_lit _ (by decide)
    rw [hloop, execute_bad command0 _ _ _ _ _ _ hchars,
      cstr_four _ _ _ _ (hne _ hb0) (hne _ hb1) (hne _ hb2) (hne _ hb3)]
    simp only [printError, printMessage, hopen, hclose, List.map_cons, List.map_nil,
      hcb _ hb0, hcb _ hb1, hcb _ hb2, hcb _ hb3, List.append_assoc]
  · intro h2 h0 h1 h3 hn
    subst h2
    rw [hloop, execute_nodeRange _ _ _ _ _ _ h0 h1 h3 hn]
  · intro h2 h0 h1 h3 hn
    subst h2
    rw [hloop, execute_stateRange _ _ _ _ _ _ h0 h1 h3 hn]

/-- Witness of the amended C15: the line `ab:1` on an idle board. -/
theorem loop_rejections_witness :
    (58 ≠ 58 ∨ ¬ digitByte 97 ∨ ¬ digitByte 98 ∨ ¬ digitByte 49 →
        (loop (fun _ => 0) (idleWorld (strBytes "ab:1\n"))).net =
          (idleWorld (strBytes "ab:1\n")).net ++
            (strBytes "Bad command: [" ++ [97, 98, 58, 49] ++ strBytes "]\n")) ∧
      (58 = 58 → digitByte 97 → digitByte 98 → digitByte 49 → NODECOUNT < nodeId 97 98 →
        (loop (fun _ => 0) (idleWorld (strBytes "ab:1\n"))).net =
          (idleWorld (strBytes "ab:1\n")).net ++
            strBytes "This fence only supports up to 05nodes.\n") ∧
      (58 = 58 → digitByte 97 → digitByte 98 → 50 ≤ 49 ∧ 49 ≤ 57 →
        nodeId 97 98 ≤ NODECOUNT →
        (loop (fun _ => 0) (idleWorld (strBytes "ab:1\n"))).net =
          (idleWorld (strBytes "ab:1\n")).net ++ strBytes
            "Invalid state received. Send 'XX:0' to kill a node, XX:1 to release a node\n") :=
  loop_rejections (fun _ => 0) (idleWorld (strBytes "ab:1\n")) 97 98 58 49 [10] rfl rfl rfl
    (by decide)

end NaOS
